import Mathlib

/-! City Management API (`city-crud-api/index.js`).

A shallow embedding of the Node backend: the in-memory store `db.cities`, the
repository layer `CityRepository`, the controller layer `CityController` and the
global error handler, followed by theorems about them.

Conventions of the embedding.

* The store `db.cities` is a list of cities, threaded through every operation:
  an operation takes the store before the request and returns its result
  together with the store after the request.
* `Date.now()` is an input (`now`) of the operations that read the clock.
* `req.params.id` is represented by the value of `parseInt(req.params.id, 10)`.
* `req.body` is represented by the two properties the handlers destructure from
  it, `name` and `country`, each an arbitrary JSON value or `undefined`.
* A JavaScript exception is an explicit `Except.error`; the store that comes with
  it is the store at the moment the exception was thrown.
-/

namespace CityCrud

/-! ## JavaScript values -/

/-- A JavaScript string, as the sequence of its characters. Every character that
`trim` removes is a single UTF-16 code unit, so trimming by character and by code
unit agree. -/
abbrev JsString := List Char

/-- The code points removed by `String.prototype.trim`: the ECMAScript WhiteSpace
and LineTerminator productions. -/
def isTrimChar (c : Char) : Bool :=
  let n := c.toNat
  n == 0x09 || n == 0x0A || n == 0x0B || n == 0x0C || n == 0x0D || n == 0x20 ||
  n == 0xA0 || n == 0x1680 || (decide (0x2000 ≤ n) && decide (n ≤ 0x200A)) ||
  n == 0x2028 || n == 0x2029 || n == 0x202F || n == 0x205F || n == 0x3000 ||
  n == 0xFEFF

/-- The built-in `String.prototype.trimStart`. -/
def trimStart (s : JsString) : JsString :=
  s.dropWhile isTrimChar

/-- The built-in `String.prototype.trimEnd`. -/
def trimEnd (s : JsString) : JsString :=
  (s.reverse.dropWhile isTrimChar).reverse

/-- The built-in `String.prototype.trim`: white space is removed from both ends. -/
def trim (s : JsString) : JsString :=
  trimEnd (trimStart s)

/-- The exceptions the handlers can raise. Calling `.trim()` on a value that has no
callable `trim` property raises a `TypeError`. -/
inductive JsError
  | typeError
deriving DecidableEq, Repr

/-- A property of the parsed request body: `undefined` when the property is absent,
otherwise a JSON value. Only truthiness, `typeof` and the `trim` method of such a
value are ever observed by the handlers, so a number is kept as an integer and the
contents of objects and arrays are not kept. -/
inductive JsValue
  | undefined
  | null
  | bool (b : Bool)
  | number (n : Int)
  | string (s : JsString)
  | object
  | array
deriving DecidableEq, Repr

/-- The results of the `typeof` operator. -/
inductive JsType
  | undefined
  | object
  | boolean
  | number
  | string
deriving DecidableEq, Repr

namespace JsValue

/-- JavaScript truthiness (`ToBoolean`): `undefined`, `null`, `false`, `0` and the
empty string are falsy, everything else is truthy. -/
def truthy : JsValue → Bool
  | undefined => false
  | null => false
  | bool b => b
  | number n => n != 0
  | string s => !s.isEmpty
  | object => true
  | array => true

/-- The `typeof` operator. -/
def typeOf : JsValue → JsType
  | undefined => JsType.undefined
  | null => JsType.object
  | bool _ => JsType.boolean
  | number _ => JsType.number
  | string _ => JsType.string
  | object => JsType.object
  | array => JsType.object

/-- The method call `v.trim()`. A string is trimmed. On `undefined` and `null` the
property access throws; on a boolean, a number, an array or a JSON object the
property `trim` is missing or not callable, so the call throws: a `TypeError`
in every case. -/
def callTrim : JsValue → Except JsError JsString
  | string s => Except.ok (trim s)
  | _ => Except.error JsError.typeError

end JsValue

/-! ## Data model -/

/-- A city record of the store: `id`, `name`, `country`. -/
structure City where
  id : Int
  name : JsString
  country : JsString
deriving DecidableEq, Repr

/-- The collection `db.cities`, in insertion order. -/
abbrev Cities := List City

/-- The initial value of `db.cities`: no city. -/
def emptyDb : Cities := []

/-- The value of `parseInt(req.params.id, 10)`: `NaN` when the path segment does
not start with an integer, otherwise that integer. Stored ids are `Date.now()`
readings, hence integers. -/
inductive ParsedId
  | nan
  | int (i : Int)
deriving DecidableEq, Repr

/-- The comparison `c.id === id` of a stored id with a parsed request id. `NaN` is
equal to nothing. -/
def strictEquals (cid : Int) (id : ParsedId) : Bool :=
  match id with
  | ParsedId.nan => false
  | ParsedId.int i => cid == i

/-- The text of a parsed id inside a template literal: `NaN`, or the decimal
digits of the integer, which is what JavaScript prints for an integer of
magnitude below 10^21. Above that JavaScript prints the number in exponent
notation; only the wording of one message depends on this text. -/
def ParsedId.text : ParsedId → String
  | ParsedId.nan => "NaN"
  | ParsedId.int i => toString i

/-- The parsed request body, as the properties `name` and `country` that the
handlers read from it. -/
structure Body where
  name : JsValue
  country : JsValue
deriving DecidableEq, Repr

/-- The built-in `Array.prototype.findIndex`: the index of the first element that
satisfies the predicate, `none` standing for `-1`. -/
def findIndex (p : City → Bool) : Cities → Option Nat
  | [] => none
  | c :: cs => if p c then some 0 else (findIndex p cs).map (fun i => i + 1)

/-- Assignment through the reference to the element at index `i`: that element is
replaced by `f` of it, in place. -/
def modifyAt (i : Nat) (f : City → City) : Cities → Cities
  | [] => []
  | c :: cs =>
    match i with
    | 0 => f c :: cs
    | j + 1 => c :: modifyAt j f cs

/-! ## Repository layer -/

namespace CityRepository

/-- `findAll`: the whole collection. -/
def findAll (db : Cities) : Cities :=
  db

/-- `findById`: `db.cities.find(c => c.id === id)`, the first city with that id, or
`none` for `undefined`. -/
def findById (id : ParsedId) (db : Cities) : Option City :=
  db.find? (fun c => strictEquals c.id id)

/-- `create`: builds the new city from `Date.now()` and the trimmed fields, pushes
it at the end of the collection and returns it. An exception of `.trim()` is thrown
before the push. -/
def create (now : Int) (data : Body) (db : Cities) : Except JsError City × Cities :=
  match data.name.callTrim with
  | Except.error e => (Except.error e, db)
  | Except.ok name =>
    match data.country.callTrim with
    | Except.error e => (Except.error e, db)
    | Except.ok country =>
      let newCity : City := { id := now, name := name, country := country }
      (Except.ok newCity, db ++ [newCity])

/-- The statement `if (updates.name) city.name = updates.name.trim();` with `city`
the element at index `i`. -/
def assignName (i : Nat) (v : JsValue) (db : Cities) : Except JsError Unit × Cities :=
  if v.truthy then
    match v.callTrim with
    | Except.error e => (Except.error e, db)
    | Except.ok s => (Except.ok (), modifyAt i (fun c => { c with name := s }) db)
  else (Except.ok (), db)

/-- The statement `if (updates.country) city.country = updates.country.trim();`
with `city` the element at index `i`. -/
def assignCountry (i : Nat) (v : JsValue) (db : Cities) : Except JsError Unit × Cities :=
  if v.truthy then
    match v.callTrim with
    | Except.error e => (Except.error e, db)
    | Except.ok s => (Except.ok (), modifyAt i (fun c => { c with country := s }) db)
  else (Except.ok (), db)

/-- `update`: looks up the first city with the id (`find` returns a reference to
the stored object, here its index); returns `none` (for `null`) when there is none;
otherwise assigns the name, then the country, each only when truthy, and returns
the city. -/
def update (id : ParsedId) (updates : Body) (db : Cities) :
    Except JsError (Option City) × Cities :=
  match findIndex (fun c => strictEquals c.id id) db with
  | none => (Except.ok none, db)
  | some i =>
    match assignName i updates.name db with
    | (Except.error e, db1) => (Except.error e, db1)
    | (Except.ok _, db1) =>
      match assignCountry i updates.country db1 with
      | (Except.error e, db2) => (Except.error e, db2)
      | (Except.ok _, db2) => (Except.ok db2[i]?, db2)

/-- `delete`: finds the index of the first city with the id; returns `false` when
there is none, otherwise removes that one element (`splice(index, 1)`) and returns
`true`. -/
def delete (id : ParsedId) (db : Cities) : Bool × Cities :=
  match findIndex (fun c => strictEquals c.id id) db with
  | none => (false, db)
  | some index => (true, db.eraseIdx index)

end CityRepository

/-! ## Controller layer and global error handler -/

/-- The JSON document sent with a response. -/
inductive Payload
  | cities (cs : Cities)
  | city (c : City)
  | failure (error : String) (message : String)
  | deleted (message : String) (id : ParsedId)
deriving DecidableEq, Repr

/-- An HTTP response: status code and JSON document. -/
structure Response where
  status : Nat
  body : Payload
deriving DecidableEq, Repr

/-- The global error handler, reached through `next(error)`: status 500 with a
generic message. -/
def globalErrorHandler (_err : JsError) : Response :=
  { status := 500,
    body := Payload.failure "Internal Server Error" "Something went wrong on the server." }

/-- The guard `!v || typeof v !== 'string' || !v.trim()` of `create`. The last
disjunct is evaluated only for a string, the disjunct before it being true for
every other value. -/
def failsStrictValidation (v : JsValue) : Bool :=
  !v.truthy || v.typeOf != JsType.string ||
    (match v with
     | JsValue.string s => !(JsValue.string (trim s)).truthy
     | _ => false)

namespace CityController

/-- `getAll`: 200 with the whole collection. -/
def getAll (db : Cities) : Response × Cities :=
  ({ status := 200, body := Payload.cities (CityRepository.findAll db) }, db)

/-- `getOne`: 404 when no city has the id, otherwise 200 with the city found. -/
def getOne (id : ParsedId) (db : Cities) : Response × Cities :=
  match CityRepository.findById id db with
  | none =>
    ({ status := 404,
       body := Payload.failure "Resource Not Found"
         ("City with ID " ++ id.text ++ " does not exist.") }, db)
  | some city => ({ status := 200, body := Payload.city city }, db)

/-- `create`: 400 when `name` fails the strict validation, 400 when `country` fails
it, otherwise the city is created and returned with 201; an exception goes to the
global error handler. -/
def create (now : Int) (body : Body) (db : Cities) : Response × Cities :=
  if failsStrictValidation body.name then
    ({ status := 400,
       body := Payload.failure "Validation Error"
         "Field \"name\" is required and must be a string." }, db)
  else if failsStrictValidation body.country then
    ({ status := 400,
       body := Payload.failure "Validation Error"
         "Field \"country\" is required and must be a string." }, db)
  else
    match CityRepository.create now { name := body.name, country := body.country } db with
    | (Except.error e, db1) => (globalErrorHandler e, db1)
    | (Except.ok newCity, db1) => ({ status := 201, body := Payload.city newCity }, db1)

/-- `update`: 400 when neither `name` nor `country` is truthy; otherwise the
repository update runs, 404 when it returns `null`, 200 with the updated city
otherwise; an exception goes to the global error handler. -/
def update (id : ParsedId) (body : Body) (db : Cities) : Response × Cities :=
  if !body.name.truthy && !body.country.truthy then
    ({ status := 400,
       body := Payload.failure "Validation Error"
         "Please provide at least one field to update (name or country)." }, db)
  else
    match CityRepository.update id { name := body.name, country := body.country } db with
    | (Except.error e, db1) => (globalErrorHandler e, db1)
    | (Except.ok none, db1) =>
      ({ status := 404, body := Payload.failure "Resource Not Found" "City not found." }, db1)
    | (Except.ok (some updatedCity), db1) =>
      ({ status := 200, body := Payload.city updatedCity }, db1)

/-- `delete`: 404 when the repository reports that nothing was deleted, otherwise
200 with a message and the id. -/
def delete (id : ParsedId) (db : Cities) : Response × Cities :=
  match CityRepository.delete id db with
  | (false, db1) =>
    ({ status := 404, body := Payload.failure "Resource Not Found" "City not found." }, db1)
  | (true, db1) =>
    ({ status := 200, body := Payload.deleted "City deleted successfully" id }, db1)

end CityController

/-! ## Client: fallback over the two backends (`city-crud-ui/src/App.jsx`) -/

/-- The response a `fetch` promise resolves with: status code and body text. -/
structure HttpResponse where
  status : Nat
  text : String
deriving DecidableEq, Repr

/-- The property `res.ok` of a fetch response: the status is in the range 200 to
299. -/
def HttpResponse.ok (res : HttpResponse) : Bool :=
  decide (200 ≤ res.status) && decide (res.status ≤ 299)

/-- The errors `fetchWithFallback` can throw: the error it builds for a response
that is not ok (`Failed at` followed by the URL), the error a rejected `fetch`
promise carries (an `Error` object, hence truthy), and the error built when no
error was recorded (`All API endpoints failed`). -/
inductive ClientError
  | failedAt (url : String)
  | network (message : String)
  | allFailed
deriving DecidableEq, Repr

/-- The outcome of one call of `fetch`: the promise resolves with a response, ok
or not, or is rejected with a network error. -/
inductive FetchOutcome
  | resolved (res : HttpResponse)
  | rejected (message : String)
deriving DecidableEq, Repr

/-- The constant `API_BASES`: the Laravel base URL, then the Node.js base URL. -/
def API_BASES : List String :=
  ["http://localhost:8000/api/cities", "http://localhost:3000/cities"]

/-- The `for` loop of `fetchWithFallback` over the remaining bases. `fetch` gives
the outcome of a request to a URL (with the `options` of the call, which are
passed on unchanged); `lastError` is the variable of that name, `none` while it is
`undefined`; `contacted` lists the URLs requested so far. The result is the
response returned or the error thrown, with the URLs requested. -/
def fetchLoop (fetch : String → FetchOutcome) (urlPath : String) :
    List String → Option ClientError → List String →
      Except ClientError HttpResponse × List String
  | [], lastError, contacted =>
    (Except.error (lastError.getD ClientError.allFailed), contacted)
  | base :: rest, _, contacted =>
    match fetch (base ++ urlPath) with
    | FetchOutcome.resolved res =>
      if res.ok then (Except.ok res, contacted ++ [base ++ urlPath])
      else
        fetchLoop fetch urlPath rest (some (ClientError.failedAt (base ++ urlPath)))
          (contacted ++ [base ++ urlPath])
    | FetchOutcome.rejected message =>
      fetchLoop fetch urlPath rest (some (ClientError.network message))
        (contacted ++ [base ++ urlPath])

/-- `fetchWithFallback`: the loop over `API_BASES`, starting with no error recorded
and no URL requested. -/
def fetchWithFallback (fetch : String → FetchOutcome) (urlPath : String) :
    Except ClientError HttpResponse × List String :=
  fetchLoop fetch urlPath API_BASES none []

/-! ## Laravel backend (`city-crud-laravel/app/Http/Controllers/CityController.php`) -/

/-- The characters removed by PHP `trim` with its default character list: space,
tab, line feed, carriage return, NUL and vertical tab. All are single bytes, so
trimming by character and by byte agree. -/
def isPhpTrimChar (c : Char) : Bool :=
  let n := c.toNat
  n == 0x20 || n == 0x09 || n == 0x0A || n == 0x0D || n == 0x00 || n == 0x0B

/-- The PHP built-in `trim`. -/
def phpTrim (s : JsString) : JsString :=
  ((s.dropWhile isPhpTrimChar).reverse.dropWhile isPhpTrimChar).reverse

/-- The validation rules `required|string` of the framework, on one input field.
`required` rejects a field that is absent, `null`, or a string that is empty after
`trim`; `string` rejects every value that is not a string. The validated value is
the input string as it is. -/
def requiredString : JsValue → Option JsString
  | JsValue.string s => if (phpTrim s).isEmpty then none else some s
  | _ => none

/-- The JSON document of a Laravel response. -/
inductive LaravelPayload
  | cities (cs : Cities)
  | city (c : City)
  | error (error : String)
  | message (message : String)
deriving DecidableEq, Repr

/-- What a Laravel controller method produces: a JSON response with its status, or
the `ValidationException` thrown by `$request->validate`. -/
inductive LaravelOutcome
  | response (status : Nat) (body : LaravelPayload)
  | validationException
deriving DecidableEq, Repr

namespace Laravel

/-- The initial value of `self::$cities`. -/
def cities : Cities :=
  [⟨1, "Tokyo".toList, "Japan".toList⟩, ⟨2, "New York".toList, "USA".toList⟩,
   ⟨3, "Paris".toList, "France".toList⟩]

/-- The call `$request->validate` with the rule `required|string` for `name` and
for `country`, on the request input as the controller receives it: the validated
name and country, or `none` when the call throws. -/
def validate (request : Body) : Option (JsString × JsString) :=
  match requiredString request.name, requiredString request.country with
  | some name, some country => some (name, country)
  | _, _ => none

/-- The constant `PHP_INT_MAX` of a 64-bit PHP: the greatest integer. -/
def PHP_INT_MAX : Int := 9223372036854775807

/-- The constant `PHP_INT_MIN` of a 64-bit PHP: the least integer. -/
def PHP_INT_MIN : Int := -9223372036854775808

/-- The PHP expression `$m + 1` on the value of a number. A value in the integer
range is a PHP integer: below `PHP_INT_MAX` the sum is the next integer, and at
`PHP_INT_MAX` the sum overflows to the float 2^63, whose value is still `m + 1`.
A value outside the integer range is a float of magnitude 2^63 or more, where
neighbouring floats are at least 1024 apart, so adding 1 rounds back to the same
float: the sum is `m` again. -/
def phpAddOne (m : Int) : Int :=
  if PHP_INT_MIN ≤ m ∧ m ≤ PHP_INT_MAX then m + 1 else m

/-- The id expression of `store`:
`count(self::$cities) ? max(array_column(self::$cities, 'id')) + 1 : 1`. -/
def nextId (db : Cities) : Int :=
  match db.map City.id with
  | [] => 1
  | x :: xs => phpAddOne (xs.foldl max x)

/-- The `foreach` loop of `update`: the first city whose id equals the id is
overwritten in place with the name and the country, and returned with the array;
`none` when the loop ends without a match. -/
def updateLoop (id : Int) (name country : JsString) : Cities → Option (City × Cities)
  | [] => none
  | city :: rest =>
    if city.id == id then
      some ({ city with name := name, country := country },
        { city with name := name, country := country } :: rest)
    else
      (updateLoop id name country rest).map (fun r => (r.1, city :: r.2))

namespace CityController

/-- `index`: the whole array, with status 200. -/
def index (db : Cities) : LaravelOutcome × Cities :=
  (LaravelOutcome.response 200 (LaravelPayload.cities db), db)

/-- The method `show` (a reserved word here, hence the longer name): the first
city whose id equals `(int)$id`, with status 200, or 404 with an error. -/
def showCity (id : Int) (db : Cities) : LaravelOutcome × Cities :=
  match db.find? (fun city => city.id == id) with
  | some city => (LaravelOutcome.response 200 (LaravelPayload.city city), db)
  | none => (LaravelOutcome.response 404 (LaravelPayload.error "City not found"), db)

/-- `store`: validates, computes the id, appends the city and answers 201 with
it. -/
def store (request : Body) (db : Cities) : LaravelOutcome × Cities :=
  match validate request with
  | none => (LaravelOutcome.validationException, db)
  | some (name, country) =>
    (LaravelOutcome.response 201
        (LaravelPayload.city { id := nextId db, name := name, country := country }),
      db ++ [{ id := nextId db, name := name, country := country }])

/-- `update`: validates, then overwrites the name and the country of the first
city whose id equals `(int)$id` and answers 200 with it, or answers 404. -/
def update (request : Body) (id : Int) (db : Cities) : LaravelOutcome × Cities :=
  match validate request with
  | none => (LaravelOutcome.validationException, db)
  | some (name, country) =>
    match updateLoop id name country db with
    | some (city, db1) => (LaravelOutcome.response 200 (LaravelPayload.city city), db1)
    | none => (LaravelOutcome.response 404 (LaravelPayload.error "City not found"), db)

/-- `destroy`: removes the first city whose id equals `(int)$id`
(`array_splice` at its index) and answers 200 with a message, or answers 404. -/
def destroy (id : Int) (db : Cities) : LaravelOutcome × Cities :=
  match findIndex (fun city => city.id == id) db with
  | some i =>
    (LaravelOutcome.response 200 (LaravelPayload.message "City deleted"), db.eraseIdx i)
  | none => (LaravelOutcome.response 404 (LaravelPayload.error "City not found"), db)

end CityController

end Laravel

/-! ## Specification vocabulary -/

/-- The field is missing, is not a string, or is empty after trimming. -/
def MissingOrBlank (v : JsValue) : Prop :=
  v = JsValue.undefined ∨ v.typeOf ≠ JsType.string ∨
    ∃ s, v = JsValue.string s ∧ trim s = []

/-- The ids of the stored cities, in store order. -/
def ids (db : Cities) : List Int :=
  db.map City.id

/-- The value of a field after an update that supplies `v` for it: the trimmed
string when a string is supplied, the previous value when nothing is supplied. -/
def suppliedOr (v : JsValue) (old : JsString) : JsString :=
  match v with
  | JsValue.string s => trim s
  | _ => old

/-- A field of an update request that is either not supplied or a string that is
not blank. -/
def AbsentOrText (v : JsValue) : Prop :=
  v = JsValue.undefined ∨ ∃ s, v = JsValue.string s ∧ trim s ≠ []

/-- A string that is non-empty and equal to its own trimmed form. -/
abbrev NonBlankTrimmed (s : JsString) : Prop :=
  s ≠ [] ∧ trim s = s

/-- A city whose name and country are non-empty and equal to their own trimmed
form. -/
abbrev WellFormed (c : City) : Prop :=
  NonBlankTrimmed c.name ∧ NonBlankTrimmed c.country

/-- A sequence of create requests, each with its own clock reading, served in
order: the responses and the store after the last one. -/
def createAll : List (Int × Body) → Cities → List Response × Cities
  | [], db => ([], db)
  | (now, body) :: rest, db =>
    ((CityController.create now body db).1 ::
        (createAll rest (CityController.create now body db).2).1,
      (createAll rest (CityController.create now body db).2).2)

/-- Whether an outcome of `fetch` is a response that is ok. -/
def FetchOutcome.isOk : FetchOutcome → Bool
  | FetchOutcome.resolved res => res.ok
  | FetchOutcome.rejected _ => false

/-- The error that stands for a failed request to a URL: the `Failed at` error for
a response that is not ok, the network error for a rejected promise. -/
def errorOf (url : String) : FetchOutcome → ClientError
  | FetchOutcome.resolved _ => ClientError.failedAt url
  | FetchOutcome.rejected message => ClientError.network message

/-- The kinds of result of a request: success, validation error, not found,
internal error. -/
inductive Kind
  | success
  | validationError
  | notFound
  | internalError
deriving DecidableEq, Repr

/-- The kind of a response of the Node backend, from its status code. -/
def nodeKind (r : Response) : Kind :=
  if r.status = 200 ∨ r.status = 201 then Kind.success
  else if r.status = 400 then Kind.validationError
  else if r.status = 404 then Kind.notFound
  else Kind.internalError

/-- The kind of an outcome of the Laravel backend. -/
def laravelKind : LaravelOutcome → Kind
  | LaravelOutcome.validationException => Kind.validationError
  | LaravelOutcome.response status _ =>
    if status = 200 ∨ status = 201 then Kind.success
    else if status = 404 then Kind.notFound
    else Kind.internalError

/-- The sequence of (name, country) values of a store. -/
def namesOf (db : Cities) : List (JsString × JsString) :=
  db.map (fun c => (c.name, c.country))

/-- A string that is not empty and that neither backend's trimming changes. -/
def Clean (s : JsString) : Prop :=
  s ≠ [] ∧ trim s = s ∧ phpTrim s = s

/-- A field that both backends reject on create: it is absent, is not a string, or
is a string that the trimming of each backend empties. -/
def Unusable (v : JsValue) : Prop :=
  v.typeOf ≠ JsType.string ∨ ∃ s, v = JsValue.string s ∧ trim s = [] ∧ phpTrim s = []

/-- Every stored id is a PHP integer below the greatest one, so that the id after
the greatest stored id is a PHP integer too. -/
abbrev BelowIntMax (db : Cities) : Prop :=
  ∀ c ∈ db, Laravel.PHP_INT_MIN ≤ c.id ∧ c.id < Laravel.PHP_INT_MAX

/-- The falsy values a JSON property can have: absent, `null`, the empty string,
`0` and `false`. -/
def Falsy (v : JsValue) : Prop :=
  v = JsValue.undefined ∨ v = JsValue.null ∨ v = JsValue.string [] ∨
    v = JsValue.number 0 ∨ v = JsValue.bool false

/-! ## Basic facts about the built-ins -/

theorem trim_nil : trim [] = [] := rfl

theorem ne_nil_of_trim_ne_nil {s : JsString} (h : trim s ≠ []) : s ≠ [] := by
  intro hs
  exact h (hs ▸ trim_nil)

theorem failsStrictValidation_string (s : JsString) :
    failsStrictValidation (JsValue.string s) = true ↔ trim s = [] := by
  cases s with
  | nil => simp [failsStrictValidation, JsValue.truthy, trim_nil]
  | cons a l =>
    simp [failsStrictValidation, JsValue.truthy, JsValue.typeOf, List.isEmpty_iff]

theorem failsStrictValidation_iff (v : JsValue) :
    failsStrictValidation v = true ↔ MissingOrBlank v := by
  cases v with
  | string s =>
    rw [failsStrictValidation_string]
    constructor
    · intro h
      exact Or.inr (Or.inr ⟨s, rfl, h⟩)
    · rintro (h | h | ⟨t, ht, hb⟩)
      · cases h
      · exact absurd rfl h
      · cases ht
        exact hb
  | undefined => simp [failsStrictValidation, JsValue.truthy, MissingOrBlank]
  | null => simp [failsStrictValidation, JsValue.truthy, MissingOrBlank, JsValue.typeOf]
  | bool b => simp [failsStrictValidation, JsValue.truthy, MissingOrBlank, JsValue.typeOf]
  | number n => simp [failsStrictValidation, JsValue.truthy, MissingOrBlank, JsValue.typeOf]
  | object => simp [failsStrictValidation, JsValue.truthy, MissingOrBlank, JsValue.typeOf]
  | array => simp [failsStrictValidation, JsValue.truthy, MissingOrBlank, JsValue.typeOf]

theorem not_missingOrBlank_iff (v : JsValue) :
    ¬ MissingOrBlank v ↔ ∃ s, v = JsValue.string s ∧ trim s ≠ [] := by
  constructor
  · intro h
    cases v with
    | string s =>
      refine ⟨s, rfl, fun hb => h (Or.inr (Or.inr ⟨s, rfl, hb⟩))⟩
    | undefined => exact absurd (Or.inl rfl) h
    | null => exact absurd (Or.inr (Or.inl (by simp [JsValue.typeOf]))) h
    | bool b => exact absurd (Or.inr (Or.inl (by simp [JsValue.typeOf]))) h
    | number n => exact absurd (Or.inr (Or.inl (by simp [JsValue.typeOf]))) h
    | object => exact absurd (Or.inr (Or.inl (by simp [JsValue.typeOf]))) h
    | array => exact absurd (Or.inr (Or.inl (by simp [JsValue.typeOf]))) h
  · rintro ⟨s, rfl, hs⟩ (h | h | ⟨t, ht, hb⟩)
    · cases h
    · exact h rfl
    · cases ht
      exact hs hb

/-- A create request whose two fields are strings that are not blank appends the
trimmed city and answers 201 with it. -/
theorem create_of_valid (now : Int) (body : Body) (db : Cities) (s t : JsString)
    (hn : body.name = JsValue.string s) (hs : trim s ≠ [])
    (hc : body.country = JsValue.string t) (ht : trim t ≠ []) :
    CityController.create now body db =
      ({ status := 201, body := Payload.city { id := now, name := trim s, country := trim t } },
        db ++ [{ id := now, name := trim s, country := trim t }]) := by
  have h1 : failsStrictValidation (JsValue.string s) = false := by
    rw [Bool.eq_false_iff, Ne, failsStrictValidation_string]
    exact hs
  have h2 : failsStrictValidation (JsValue.string t) = false := by
    rw [Bool.eq_false_iff, Ne, failsStrictValidation_string]
    exact ht
  simp [CityController.create, h1, h2, CityRepository.create, hn, hc, JsValue.callTrim]

/-- A create request with a field that fails the validation answers 400 with the
error "Validation Error" and leaves the store as it was. -/
theorem create_of_invalid (now : Int) (body : Body) (db : Cities)
    (h : MissingOrBlank body.name ∨ MissingOrBlank body.country) :
    (CityController.create now body db).1.status = 400 ∧
    (∃ m, (CityController.create now body db).1.body = Payload.failure "Validation Error" m) ∧
    (CityController.create now body db).2 = db := by
  by_cases h1 : failsStrictValidation body.name = true
  · simp [CityController.create, h1]
  · have h2 : failsStrictValidation body.country = true := by
      rcases h with h | h
      · exact absurd ((failsStrictValidation_iff _).2 h) h1
      · exact (failsStrictValidation_iff _).2 h
    simp [CityController.create, h1, h2]

/-! ## Facts about lookup, in-place assignment and removal -/

/-- A store that holds a city satisfying `p` splits at the first such city. -/
theorem exists_first_split (p : City → Bool) (db : Cities)
    (h : ∃ c ∈ db, p c = true) :
    ∃ pre c post, db = pre ++ c :: post ∧ (∀ x ∈ pre, p x = false) ∧ p c = true := by
  induction db with
  | nil =>
    obtain ⟨c, hc, _⟩ := h
    cases hc
  | cons a l ih =>
    by_cases ha : p a = true
    · exact ⟨[], a, l, rfl, by simp, ha⟩
    · have hl : ∃ c ∈ l, p c = true := by
        obtain ⟨c, hc, hp⟩ := h
        rcases List.mem_cons.1 hc with rfl | hc
        · exact absurd hp ha
        · exact ⟨c, hc, hp⟩
      obtain ⟨pre, c, post, e, hpre, hpc⟩ := ih hl
      refine ⟨a :: pre, c, post, by rw [e]; rfl, ?_, hpc⟩
      intro x hx
      rcases List.mem_cons.1 hx with rfl | hx
      · simpa using ha
      · exact hpre x hx

theorem findIndex_eq_none (p : City → Bool) (db : Cities)
    (h : ∀ x ∈ db, p x = false) : findIndex p db = none := by
  induction db with
  | nil => rfl
  | cons a l ih =>
    have ha : p a = false := h a (List.mem_cons_self a l)
    have hl : findIndex p l = none := ih (fun x hx => h x (List.mem_cons_of_mem a hx))
    simp [findIndex, ha, hl]

theorem findIndex_first (p : City → Bool) (pre : Cities) (c : City) (post : Cities)
    (hpre : ∀ x ∈ pre, p x = false) (hc : p c = true) :
    findIndex p (pre ++ c :: post) = some pre.length := by
  induction pre with
  | nil => simp [findIndex, hc]
  | cons a l ih =>
    have ha : p a = false := hpre a (List.mem_cons_self a l)
    have hl := ih (fun x hx => hpre x (List.mem_cons_of_mem a hx))
    simp [findIndex, ha, hl]

theorem findIndex_eq_some_split (p : City → Bool) (db : Cities) (i : Nat)
    (h : findIndex p db = some i) :
    ∃ pre c post, db = pre ++ c :: post ∧ pre.length = i ∧
      (∀ x ∈ pre, p x = false) ∧ p c = true := by
  have hex : ∃ c ∈ db, p c = true := by
    by_contra hno
    have hall : ∀ x ∈ db, p x = false := by
      intro x hx
      by_contra hx1
      exact hno ⟨x, hx, by simpa using hx1⟩
    rw [findIndex_eq_none p db hall] at h
    cases h
  obtain ⟨pre, c, post, e, hpre, hc⟩ := exists_first_split p db hex
  refine ⟨pre, c, post, e, ?_, hpre, hc⟩
  rw [e, findIndex_first p pre c post hpre hc] at h
  exact Option.some.inj h

theorem find?_first (p : City → Bool) (pre : Cities) (c : City) (post : Cities)
    (hpre : ∀ x ∈ pre, p x = false) (hc : p c = true) :
    List.find? p (pre ++ c :: post) = some c := by
  induction pre with
  | nil => simp [hc]
  | cons a l ih =>
    have ha : p a = false := hpre a (List.mem_cons_self a l)
    have hl := ih (fun x hx => hpre x (List.mem_cons_of_mem a hx))
    simp [List.find?, ha, hl]

theorem modifyAt_first (f : City → City) (pre : Cities) (c : City) (post : Cities) :
    modifyAt pre.length f (pre ++ c :: post) = pre ++ f c :: post := by
  induction pre with
  | nil => rfl
  | cons a l ih => simp [modifyAt, ih]

theorem eraseIdx_first (pre : Cities) (c : City) (post : Cities) :
    (pre ++ c :: post).eraseIdx pre.length = pre ++ post := by
  induction pre with
  | nil => rfl
  | cons a l ih => simp [List.eraseIdx, ih]

theorem getElem?_first (pre : Cities) (c : City) (post : Cities) :
    (pre ++ c :: post)[pre.length]? = some c := by
  induction pre with
  | nil => simp
  | cons a l ih => simpa using ih

theorem modifyAt_length (i : Nat) (f : City → City) (db : Cities) :
    (modifyAt i f db).length = db.length := by
  induction db generalizing i with
  | nil => simp [modifyAt]
  | cons a l ih =>
    cases i with
    | zero => simp [modifyAt]
    | succ j => simp [modifyAt, ih]

/-- In-place assignment that keeps the id keeps the list of ids. -/
theorem ids_modifyAt (i : Nat) (f : City → City) (hf : ∀ c, (f c).id = c.id) (db : Cities) :
    ids (modifyAt i f db) = ids db := by
  induction db generalizing i with
  | nil => simp [modifyAt]
  | cons a l ih =>
    cases i with
    | zero => simp [modifyAt, ids, hf]
    | succ j =>
      have := ih j
      simp only [ids] at this
      simp [modifyAt, ids, this]

/-! ## The repository update, step by step -/

theorem assignName_undefined (i : Nat) (db : Cities) :
    CityRepository.assignName i JsValue.undefined db = (Except.ok (), db) := rfl

theorem assignCountry_undefined (i : Nat) (db : Cities) :
    CityRepository.assignCountry i JsValue.undefined db = (Except.ok (), db) := rfl

theorem assignName_string (i : Nat) (s : JsString) (hs : s ≠ []) (db : Cities) :
    CityRepository.assignName i (JsValue.string s) db =
      (Except.ok (), modifyAt i (fun c => { c with name := trim s }) db) := by
  simp [CityRepository.assignName, JsValue.truthy, JsValue.callTrim, hs]

theorem assignCountry_string (i : Nat) (s : JsString) (hs : s ≠ []) (db : Cities) :
    CityRepository.assignCountry i (JsValue.string s) db =
      (Except.ok (), modifyAt i (fun c => { c with country := trim s }) db) := by
  simp [CityRepository.assignCountry, JsValue.truthy, JsValue.callTrim, hs]

theorem assignName_absentOrText (v : JsValue) (hv : AbsentOrText v)
    (pre : Cities) (c : City) (post : Cities) :
    CityRepository.assignName pre.length v (pre ++ c :: post) =
      (Except.ok (), pre ++ { c with name := suppliedOr v c.name } :: post) := by
  rcases hv with rfl | ⟨s, rfl, hs⟩
  · rfl
  · rw [assignName_string _ _ (ne_nil_of_trim_ne_nil hs), modifyAt_first]
    rfl

theorem assignCountry_absentOrText (v : JsValue) (hv : AbsentOrText v)
    (pre : Cities) (c : City) (post : Cities) :
    CityRepository.assignCountry pre.length v (pre ++ c :: post) =
      (Except.ok (), pre ++ { c with country := suppliedOr v c.country } :: post) := by
  rcases hv with rfl | ⟨s, rfl, hs⟩
  · rfl
  · rw [assignCountry_string _ _ (ne_nil_of_trim_ne_nil hs), modifyAt_first]
    rfl

theorem truthy_of_absentOrText (v : JsValue) (hv : AbsentOrText v)
    (h : v ≠ JsValue.undefined) : v.truthy = true := by
  rcases hv with rfl | ⟨s, rfl, hs⟩
  · exact absurd rfl h
  · simp [JsValue.truthy, ne_nil_of_trim_ne_nil hs]

/-- The repository update on a store split at the first city with the id, for
fields that are absent or text. -/
theorem repository_update_first (id : ParsedId) (updates : Body)
    (hn : AbsentOrText updates.name) (hc : AbsentOrText updates.country)
    (pre : Cities) (c : City) (post : Cities)
    (hpre : ∀ x ∈ pre, strictEquals x.id id = false) (hid : strictEquals c.id id = true) :
    CityRepository.update id updates (pre ++ c :: post) =
      (Except.ok (some { id := c.id, name := suppliedOr updates.name c.name,
                         country := suppliedOr updates.country c.country }),
        pre ++ { id := c.id, name := suppliedOr updates.name c.name,
                 country := suppliedOr updates.country c.country } :: post) := by
  unfold CityRepository.update
  rw [findIndex_first (fun x => strictEquals x.id id) pre c post hpre hid]
  simp only [assignName_absentOrText _ hn, assignCountry_absentOrText _ hc, getElem?_first]

/-! ## Trimming is idempotent -/

theorem dropWhile_eq_self_of_head (p : Char → Bool) (l : List Char)
    (h : ∀ x, l.head? = some x → p x = false) : l.dropWhile p = l := by
  cases l with
  | nil => rfl
  | cons a t => simp [List.dropWhile, h a rfl]

theorem head_dropWhile_false (p : Char → Bool) (s : List Char) :
    ∀ x, (s.dropWhile p).head? = some x → p x = false := by
  induction s with
  | nil => simp
  | cons a t ih =>
    intro x hx
    by_cases ha : p a = true
    · rw [List.dropWhile_cons_of_pos ha] at hx
      exact ih x hx
    · rw [List.dropWhile_cons_of_neg ha] at hx
      simp at hx
      subst hx
      simpa using ha

theorem head_of_initial_segment (r t : List Char) (hpre : r <+: t) (x : Char)
    (hx : r.head? = some x) : t.head? = some x := by
  obtain ⟨u, rfl⟩ := hpre
  cases r with
  | nil => simp at hx
  | cons a r1 => simpa using hx

theorem trimStart_trim (s : JsString) : trimStart (trim s) = trim s := by
  apply dropWhile_eq_self_of_head
  intro x hx
  exact head_dropWhile_false isTrimChar s x
    (head_of_initial_segment _ _ ( List.rdropWhile_prefix isTrimChar _) x hx)

theorem trim_idem (s : JsString) : trim (trim s) = trim s := by
  show trimEnd (trimStart (trim s)) = trim s
  rw [trimStart_trim]
  exact List.rdropWhile_idempotent isTrimChar (trimStart s)

theorem nonBlankTrimmed_trim {s : JsString} (h : trim s ≠ []) : NonBlankTrimmed (trim s) :=
  ⟨h, trim_idem s⟩

/-! ## What each handler does to the store -/

/-- The store after a create request: the store before, or the store before with
the trimmed city appended when both fields pass the validation. -/
theorem create_store_cases (now : Int) (body : Body) (db : Cities) :
    ((CityController.create now body db).1.status = 400 ∧
      (CityController.create now body db).2 = db) ∨
    ∃ s t, body.name = JsValue.string s ∧ trim s ≠ [] ∧
      body.country = JsValue.string t ∧ trim t ≠ [] ∧
      CityController.create now body db =
        ({ status := 201,
           body := Payload.city { id := now, name := trim s, country := trim t } },
          db ++ [{ id := now, name := trim s, country := trim t }]) := by
  by_cases h : MissingOrBlank body.name ∨ MissingOrBlank body.country
  · exact Or.inl ⟨(create_of_invalid now body db h).1, (create_of_invalid now body db h).2.2⟩
  · rw [not_or] at h
    obtain ⟨s, hn, hs⟩ := (not_missingOrBlank_iff _).1 h.1
    obtain ⟨t, hc, ht⟩ := (not_missingOrBlank_iff _).1 h.2
    exact Or.inr ⟨s, t, hn, hs, hc, ht, create_of_valid now body db s t hn hs hc ht⟩

/-- The store after a delete request: the store before with a 404, or the store
before without the first city of the id with a 200. -/
theorem delete_cases (id : ParsedId) (db : Cities) :
    ((∀ x ∈ db, strictEquals x.id id = false) ∧
      CityController.delete id db =
        ({ status := 404, body := Payload.failure "Resource Not Found" "City not found." },
          db)) ∨
    ∃ pre c post, db = pre ++ c :: post ∧
      (∀ x ∈ pre, strictEquals x.id id = false) ∧ strictEquals c.id id = true ∧
      CityController.delete id db =
        ({ status := 200, body := Payload.deleted "City deleted successfully" id },
          pre ++ post) := by
  by_cases hex : ∃ c ∈ db, strictEquals c.id id = true
  · obtain ⟨pre, c, post, e, hpre, hid⟩ :=
      exists_first_split (fun x => strictEquals x.id id) db hex
    refine Or.inr ⟨pre, c, post, e, hpre, hid, ?_⟩
    simp only [CityController.delete, CityRepository.delete, e,
      findIndex_first (fun x => strictEquals x.id id) pre c post hpre hid, eraseIdx_first]
  · have hall : ∀ x ∈ db, strictEquals x.id id = false := by
      intro x hx
      by_contra hx1
      exact hex ⟨x, hx, by simpa using hx1⟩
    refine Or.inl ⟨hall, ?_⟩
    simp only [CityController.delete, CityRepository.delete,
      findIndex_eq_none (fun x => strictEquals x.id id) db hall]

theorem delete_sublist (id : ParsedId) (db : Cities) :
    List.Sublist (CityController.delete id db).2 db := by
  rcases delete_cases id db with ⟨_, e⟩ | ⟨pre, c, post, hdb, _, _, e⟩
  · rw [e]
  · rw [e, hdb]
    exact List.Sublist.append (List.Sublist.refl pre) (List.sublist_cons_self c post)

theorem assignName_cases (v : JsValue) (pre : Cities) (c : City) (post : Cities) :
    ∃ r n, CityRepository.assignName pre.length v (pre ++ c :: post) =
        (r, pre ++ { c with name := n } :: post) ∧
      (n = c.name ∨ ∃ s, v = JsValue.string s ∧ s ≠ [] ∧ n = trim s) ∧
      (r = Except.ok () ∨ (r = Except.error JsError.typeError ∧ n = c.name)) := by
  by_cases ht : v.truthy = true
  · cases v with
    | string s =>
      have hs : s ≠ [] := by simpa [JsValue.truthy] using ht
      exact ⟨Except.ok (), trim s, by rw [assignName_string _ _ hs, modifyAt_first],
        Or.inr ⟨s, rfl, hs, rfl⟩, Or.inl rfl⟩
    | undefined => simp [JsValue.truthy] at ht
    | null => simp [JsValue.truthy] at ht
    | bool b =>
      exact ⟨Except.error JsError.typeError, c.name,
        by simp [CityRepository.assignName, ht, JsValue.callTrim], Or.inl rfl, Or.inr ⟨rfl, rfl⟩⟩
    | number n =>
      exact ⟨Except.error JsError.typeError, c.name,
        by simp [CityRepository.assignName, ht, JsValue.callTrim], Or.inl rfl, Or.inr ⟨rfl, rfl⟩⟩
    | object =>
      exact ⟨Except.error JsError.typeError, c.name,
        by simp [CityRepository.assignName, JsValue.truthy, JsValue.callTrim],
        Or.inl rfl, Or.inr ⟨rfl, rfl⟩⟩
    | array =>
      exact ⟨Except.error JsError.typeError, c.name,
        by simp [CityRepository.assignName, JsValue.truthy, JsValue.callTrim],
        Or.inl rfl, Or.inr ⟨rfl, rfl⟩⟩
  · exact ⟨Except.ok (), c.name, by simp [CityRepository.assignName, ht],
      Or.inl rfl, Or.inl rfl⟩

theorem assignCountry_cases (v : JsValue) (pre : Cities) (c : City) (post : Cities) :
    ∃ r k, CityRepository.assignCountry pre.length v (pre ++ c :: post) =
        (r, pre ++ { c with country := k } :: post) ∧
      (k = c.country ∨ ∃ s, v = JsValue.string s ∧ s ≠ [] ∧ k = trim s) ∧
      (r = Except.ok () ∨ (r = Except.error JsError.typeError ∧ k = c.country)) := by
  by_cases ht : v.truthy = true
  · cases v with
    | string s =>
      have hs : s ≠ [] := by simpa [JsValue.truthy] using ht
      exact ⟨Except.ok (), trim s, by rw [assignCountry_string _ _ hs, modifyAt_first],
        Or.inr ⟨s, rfl, hs, rfl⟩, Or.inl rfl⟩
    | undefined => simp [JsValue.truthy] at ht
    | null => simp [JsValue.truthy] at ht
    | bool b =>
      exact ⟨Except.error JsError.typeError, c.country,
        by simp [CityRepository.assignCountry, ht, JsValue.callTrim],
        Or.inl rfl, Or.inr ⟨rfl, rfl⟩⟩
    | number n =>
      exact ⟨Except.error JsError.typeError, c.country,
        by simp [CityRepository.assignCountry, ht, JsValue.callTrim],
        Or.inl rfl, Or.inr ⟨rfl, rfl⟩⟩
    | object =>
      exact ⟨Except.error JsError.typeError, c.country,
        by simp [CityRepository.assignCountry, JsValue.truthy, JsValue.callTrim],
        Or.inl rfl, Or.inr ⟨rfl, rfl⟩⟩
    | array =>
      exact ⟨Except.error JsError.typeError, c.country,
        by simp [CityRepository.assignCountry, JsValue.truthy, JsValue.callTrim],
        Or.inl rfl, Or.inr ⟨rfl, rfl⟩⟩
  · exact ⟨Except.ok (), c.country, by simp [CityRepository.assignCountry, ht],
      Or.inl rfl, Or.inl rfl⟩

/-- The repository update on a store split at the first city with the id, for any
fields: the city is replaced in place by one with the same id whose fields are the
previous ones or trimmed supplied strings, and the call returns that city or
throws. -/
theorem repository_update_cases (id : ParsedId) (updates : Body)
    (pre : Cities) (c : City) (post : Cities)
    (hpre : ∀ x ∈ pre, strictEquals x.id id = false) (hid : strictEquals c.id id = true) :
    ∃ n k,
      (n = c.name ∨ ∃ s, updates.name = JsValue.string s ∧ s ≠ [] ∧ n = trim s) ∧
      (k = c.country ∨ ∃ s, updates.country = JsValue.string s ∧ s ≠ [] ∧ k = trim s) ∧
      (CityRepository.update id updates (pre ++ c :: post) =
          (Except.error JsError.typeError, pre ++ { id := c.id, name := n, country := k } :: post) ∨
        CityRepository.update id updates (pre ++ c :: post) =
          (Except.ok (some { id := c.id, name := n, country := k }),
            pre ++ { id := c.id, name := n, country := k } :: post)) := by
  obtain ⟨r1, n, e1, hn, hr1⟩ := assignName_cases updates.name pre c post
  obtain ⟨r2, k, e2, hk, hr2⟩ :=
    assignCountry_cases updates.country pre { c with name := n } post
  unfold CityRepository.update
  rw [findIndex_first (fun x => strictEquals x.id id) pre c post hpre hid]
  rcases hr1 with rfl | ⟨rfl, rfl⟩
  · rcases hr2 with rfl | ⟨rfl, rfl⟩
    · refine ⟨n, k, hn, hk, Or.inr ?_⟩
      simp only [e1, e2, getElem?_first]
    · refine ⟨n, c.country, hn, Or.inl rfl, Or.inl ?_⟩
      simp only [e1, e2]
  · refine ⟨c.name, c.country, Or.inl rfl, Or.inl rfl, Or.inl ?_⟩
    simp only [e1]

/-- The three outcomes of an update request. With neither field truthy: 400, store
unchanged. With no city of the id: 404, store unchanged. Otherwise the first city
of the id is replaced in place by a city with the same id, and the answer is 200
with that city or 500 from the global error handler. -/
theorem update_cases (id : ParsedId) (body : Body) (db : Cities) :
    ((!body.name.truthy && !body.country.truthy) = true ∧
      (CityController.update id body db).1.status = 400 ∧
      (CityController.update id body db).2 = db) ∨
    ((!body.name.truthy && !body.country.truthy) = false ∧
      (∀ x ∈ db, strictEquals x.id id = false) ∧
      (CityController.update id body db).1.status = 404 ∧
      (CityController.update id body db).2 = db) ∨
    ((!body.name.truthy && !body.country.truthy) = false ∧
      ∃ pre c post n k, db = pre ++ c :: post ∧
        (∀ x ∈ pre, strictEquals x.id id = false) ∧ strictEquals c.id id = true ∧
        (n = c.name ∨ ∃ s, body.name = JsValue.string s ∧ s ≠ [] ∧ n = trim s) ∧
        (k = c.country ∨ ∃ s, body.country = JsValue.string s ∧ s ≠ [] ∧ k = trim s) ∧
        (CityController.update id body db =
            (globalErrorHandler JsError.typeError,
              pre ++ { id := c.id, name := n, country := k } :: post) ∨
          CityController.update id body db =
            ({ status := 200, body := Payload.city { id := c.id, name := n, country := k } },
              pre ++ { id := c.id, name := n, country := k } :: post))) := by
  by_cases hg : (!body.name.truthy && !body.country.truthy) = true
  · refine Or.inl ⟨hg, ?_, ?_⟩ <;> simp [CityController.update, hg]
  · have hg0 : (!body.name.truthy && !body.country.truthy) = false := by simpa using hg
    by_cases hex : ∃ c ∈ db, strictEquals c.id id = true
    · obtain ⟨pre, c, post, e, hpre, hid⟩ :=
        exists_first_split (fun x => strictEquals x.id id) db hex
      obtain ⟨n, k, hn, hk, hr⟩ := repository_update_cases id
        { name := body.name, country := body.country } pre c post hpre hid
      refine Or.inr (Or.inr ⟨hg0, pre, c, post, n, k, e, hpre, hid, hn, hk, ?_⟩)
      rcases hr with hr | hr
      · refine Or.inl ?_
        simp only [CityController.update, hg0, e, hr]
        rfl
      · refine Or.inr ?_
        simp only [CityController.update, hg0, e, hr]
        rfl
    · have hall : ∀ x ∈ db, strictEquals x.id id = false := by
        intro x hx
        by_contra hx1
        exact hex ⟨x, hx, by simpa using hx1⟩
      have hr : CityRepository.update id { name := body.name, country := body.country } db =
          (Except.ok none, db) := by
        simp only [CityRepository.update,
          findIndex_eq_none (fun x => strictEquals x.id id) db hall]
      refine Or.inr (Or.inl ⟨hg0, hall, ?_, ?_⟩) <;>
        simp only [CityController.update, hg0, hr] <;> rfl

/-- An update request never changes the list of ids, whatever it answers. -/
theorem ids_update (id : ParsedId) (body : Body) (db : Cities) :
    ids (CityController.update id body db).2 = ids db := by
  rcases update_cases id body db with ⟨_, _, e⟩ | ⟨_, _, _, e⟩ |
    ⟨_, pre, c, post, n, k, hdb, _, _, _, _, e | e⟩
  · rw [e]
  · rw [e]
  · rw [e, hdb]
    simp [ids]
  · rw [e, hdb]
    simp [ids]

/-- An update request that answers 400 or 404 leaves the store as it was. -/
theorem update_store_eq_of_client_error (id : ParsedId) (body : Body) (db : Cities)
    (h : (CityController.update id body db).1.status = 400 ∨
      (CityController.update id body db).1.status = 404) :
    (CityController.update id body db).2 = db := by
  rcases update_cases id body db with ⟨_, _, e⟩ | ⟨_, _, _, e⟩ |
    ⟨_, pre, c, post, n, k, hdb, _, _, _, _, e | e⟩
  · exact e
  · exact e
  · rw [e] at h
    simp [globalErrorHandler] at h
  · rw [e] at h
    simp at h

/-- A create request that does not answer 201 leaves the store as it was. -/
theorem create_store_eq_of_not_created (now : Int) (body : Body) (db : Cities)
    (h : (CityController.create now body db).1.status ≠ 201) :
    (CityController.create now body db).2 = db := by
  rcases create_store_cases now body db with ⟨_, e⟩ | ⟨s, t, _, _, _, _, e⟩
  · exact e
  · rw [e] at h
    exact absurd rfl h

/-- A delete request that does not answer 200 leaves the store as it was. -/
theorem delete_store_eq_of_not_deleted (id : ParsedId) (db : Cities)
    (h : (CityController.delete id db).1.status ≠ 200) :
    (CityController.delete id db).2 = db := by
  rcases delete_cases id db with ⟨_, e⟩ | ⟨pre, c, post, _, _, _, e⟩
  · rw [e]
  · rw [e] at h
    exact absurd rfl h

/-- A create request keeps every stored city well formed. -/
theorem wellFormed_create (now : Int) (body : Body) (db : Cities)
    (h : ∀ c ∈ db, WellFormed c) :
    ∀ c ∈ (CityController.create now body db).2, WellFormed c := by
  rcases create_store_cases now body db with ⟨_, e⟩ | ⟨s, t, _, hs, _, ht, e⟩
  · rw [e]
    exact h
  · rw [e]
    intro c hc
    rcases List.mem_append.1 hc with hc | hc
    · exact h c hc
    · rw [List.mem_singleton] at hc
      subst hc
      exact ⟨nonBlankTrimmed_trim hs, nonBlankTrimmed_trim ht⟩

/-- A delete request keeps every stored city well formed. -/
theorem wellFormed_delete (id : ParsedId) (db : Cities) (h : ∀ c ∈ db, WellFormed c) :
    ∀ c ∈ (CityController.delete id db).2, WellFormed c :=
  fun c hc => h c ((delete_sublist id db).subset hc)

/-- An update request keeps every stored city well formed when no supplied string
is made only of white space. -/
theorem wellFormed_update_of_not_blank (id : ParsedId) (body : Body) (db : Cities)
    (hn : ∀ s, body.name = JsValue.string s → s ≠ [] → trim s ≠ [])
    (hc : ∀ s, body.country = JsValue.string s → s ≠ [] → trim s ≠ [])
    (h : ∀ c ∈ db, WellFormed c) :
    ∀ c ∈ (CityController.update id body db).2, WellFormed c := by
  rcases update_cases id body db with ⟨_, _, e⟩ | ⟨_, _, _, e⟩ |
    ⟨_, pre, c, post, n, k, hdb, _, _, hn1, hk1, e⟩
  · rw [e]
    exact h
  · rw [e]
    exact h
  · have hstore : (CityController.update id body db).2 =
        pre ++ { id := c.id, name := n, country := k } :: post := by
      rcases e with e | e <;> rw [e]
    rw [hstore]
    have hcw : WellFormed c := h c (by rw [hdb]; simp)
    intro x hx
    rcases List.mem_append.1 hx with hx | hx
    · exact h x (by rw [hdb]; exact List.mem_append_left _ hx)
    · rcases List.mem_cons.1 hx with rfl | hx
      · constructor
        · rcases hn1 with rfl | ⟨s, hs, hs0, rfl⟩
          · exact hcw.1
          · exact nonBlankTrimmed_trim (hn s hs hs0)
        · rcases hk1 with rfl | ⟨s, hs, hs0, rfl⟩
          · exact hcw.2
          · exact nonBlankTrimmed_trim (hc s hs hs0)
      · exact h x (by rw [hdb]; exact List.mem_append_right _ (List.mem_cons_of_mem _ hx))

/-! ## Behaviour when the clock reading is fresh or the ids are distinct -/

/-- Create then get, for a clock reading that no stored city has as its id: the
create answers 201 with the trimmed city and the get of its id answers 200 with
that same city. -/
theorem create_then_getOne_of_fresh (now : Int) (body : Body) (db : Cities) (s t : JsString)
    (hn : body.name = JsValue.string s) (hs : trim s ≠ [])
    (hc : body.country = JsValue.string t) (ht : trim t ≠ [])
    (hfresh : ∀ x ∈ db, x.id ≠ now) :
    (CityController.create now body db).1 =
      { status := 201, body := Payload.city { id := now, name := trim s, country := trim t } } ∧
    (CityController.getOne (ParsedId.int now) (CityController.create now body db).2).1 =
      { status := 200, body := Payload.city { id := now, name := trim s, country := trim t } } := by
  rw [create_of_valid now body db s t hn hs hc ht]
  refine ⟨rfl, ?_⟩
  have hfind : CityRepository.findById (ParsedId.int now)
      (db ++ [{ id := now, name := trim s, country := trim t }]) =
      some { id := now, name := trim s, country := trim t } := by
    apply find?_first
    · intro x hx
      simpa [strictEquals] using hfresh x hx
    · simp [strictEquals]
  simp only [CityController.getOne, hfind]

/-- A create at a clock reading that no stored city has as its id keeps the ids
pairwise distinct. -/
theorem nodup_ids_create_of_fresh (now : Int) (body : Body) (db : Cities)
    (hfresh : ∀ x ∈ db, x.id ≠ now) (h : (ids db).Nodup) :
    (ids (CityController.create now body db).2).Nodup := by
  rcases create_store_cases now body db with ⟨_, e⟩ | ⟨s, t, _, _, _, _, e⟩
  · rw [e]
    exact h
  · rw [e]
    simp only [ids, List.map_append, List.map_cons, List.map_nil]
    rw [List.nodup_append]
    refine ⟨h, List.nodup_singleton now, ?_⟩
    intro a ha hb
    rw [List.mem_singleton] at hb
    obtain ⟨x, hx, rfl⟩ := List.mem_map.1 ha
    exact hfresh x hx hb

/-- A delete keeps the ids pairwise distinct. -/
theorem nodup_ids_delete (id : ParsedId) (db : Cities) (h : (ids db).Nodup) :
    (ids (CityController.delete id db).2).Nodup :=
  List.Sublist.nodup (List.Sublist.map City.id (delete_sublist id db)) h

/-- Delete then get, for a store whose ids are pairwise distinct: after a delete
that answers 200, the get of the same id answers 404. -/
theorem delete_then_getOne_of_nodup (id : ParsedId) (db : Cities) (h : (ids db).Nodup)
    (hdel : (CityController.delete id db).1.status = 200) :
    (CityController.getOne id (CityController.delete id db).2).1.status = 404 := by
  rcases delete_cases id db with ⟨_, e⟩ | ⟨pre, c, post, hdb, hpre, hid, e⟩
  · rw [e] at hdel
    simp at hdel
  · rw [e]
    have hpost : ∀ x ∈ post, strictEquals x.id id = false := by
      intro x hx
      cases id with
      | nan => rfl
      | int i =>
        have hci : c.id = i := by simpa [strictEquals] using hid
        rw [hdb] at h
        simp only [ids, List.map_append, List.map_cons] at h
        have h2 := (List.nodup_cons.1 (List.nodup_append.1 h).2.1).1
        have hne : x.id ≠ i := by
          intro hxi
          exact h2 (List.mem_map.2 ⟨x, hx, by rw [hxi, hci]⟩)
        simpa [strictEquals] using hne
    have hfind : CityRepository.findById id (pre ++ post) = none := by
      unfold CityRepository.findById
      rw [List.find?_eq_none]
      intro x hx
      rcases List.mem_append.1 hx with hx | hx
      · simp [hpre x hx]
      · simp [hpost x hx]
    simp only [CityController.getOne, hfind]

/-! ## Sequences of create requests -/

/-- When every create of a sequence answers 201, the ids of the store afterwards
are the ids before followed by the clock readings of the requests, in order. -/
theorem ids_createAll_of_created (reqs : List (Int × Body)) (db : Cities)
    (h : ∀ r ∈ (createAll reqs db).1, r.status = 201) :
    ids (createAll reqs db).2 = ids db ++ reqs.map Prod.fst := by
  induction reqs generalizing db with
  | nil => simp [createAll]
  | cons q rest ih =>
    obtain ⟨now, body⟩ := q
    have h1 : (CityController.create now body db).1.status = 201 :=
      h _ (by simp [createAll])
    have hrest : ∀ r ∈ (createAll rest (CityController.create now body db).2).1,
        r.status = 201 := by
      intro r hr
      exact h r (by simp [createAll, hr])
    have hstep : ids (CityController.create now body db).2 = ids db ++ [now] := by
      rcases create_store_cases now body db with ⟨e, _⟩ | ⟨s, t, _, _, _, _, e⟩
      · rw [e] at h1
        exact absurd h1 (by decide)
      · rw [e]
        simp [ids]
    show ids (createAll rest (CityController.create now body db).2).2 = _
    rw [ih _ hrest, hstep]
    simp

/-- After N creates that all answer 201, starting from the empty store, the
delete of an id returned by one of them answers 200, and the list returned
afterwards has N - 1 cities; when the clock readings of the creates are pairwise
distinct, none of these cities has the deleted id. -/
theorem list_after_creates_and_delete (reqs : List (Int × Body)) (i : Int)
    (h : ∀ r ∈ (createAll reqs emptyDb).1, r.status = 201)
    (hi : i ∈ reqs.map Prod.fst) :
    (CityController.delete (ParsedId.int i) (createAll reqs emptyDb).2).1.status = 200 ∧
    (CityController.getAll
        (CityController.delete (ParsedId.int i) (createAll reqs emptyDb).2).2).1 =
      { status := 200,
        body := Payload.cities
          (CityController.delete (ParsedId.int i) (createAll reqs emptyDb).2).2 } ∧
    (CityController.delete (ParsedId.int i) (createAll reqs emptyDb).2).2.length + 1 =
      reqs.length ∧
    ((reqs.map Prod.fst).Nodup →
      ∀ c ∈ (CityController.delete (ParsedId.int i) (createAll reqs emptyDb).2).2,
        c.id ≠ i) := by
  have hids : ids (createAll reqs emptyDb).2 = reqs.map Prod.fst := by
    rw [ids_createAll_of_created reqs emptyDb h]
    simp [ids, emptyDb]
  have hlen : (createAll reqs emptyDb).2.length = reqs.length := by
    have := congrArg List.length hids
    simpa [ids] using this
  have hmem : ∃ c ∈ (createAll reqs emptyDb).2, strictEquals c.id (ParsedId.int i) = true := by
    rw [← hids] at hi
    obtain ⟨c, hc, hci⟩ := List.mem_map.1 hi
    exact ⟨c, hc, by simp [strictEquals, hci]⟩
  rcases delete_cases (ParsedId.int i) (createAll reqs emptyDb).2 with
    ⟨hall, _⟩ | ⟨pre, c, post, hdb, hpre, hid, e⟩
  · obtain ⟨c, hc, hci⟩ := hmem
    rw [hall c hc] at hci
    cases hci
  · refine ⟨by rw [e], rfl, ?_, ?_⟩
    · rw [e, ← hlen, hdb]
      simp
      omega
    · intro hnd
      rw [← hids, hdb] at hnd
      rw [e]
      have hci : c.id = i := by simpa [strictEquals] using hid
      simp only [ids, List.map_append, List.map_cons] at hnd
      intro x hx hxi
      rcases List.mem_append.1 hx with hx | hx
      · have := hpre x hx
        simp [strictEquals, hxi] at this
      · exact (List.nodup_cons.1 (List.nodup_append.1 hnd).2.1).1
          (List.mem_map.2 ⟨x, hx, by rw [hxi, hci]⟩)

/-! ## Theorems -/

/-- C4. Create validation: the create handler answers 400 with the error
"Validation Error" exactly when the name or the country is missing, is not a
string, or is empty after trimming; in that case the store is unchanged, and
otherwise the answer is 201 and the store is the previous one with exactly one
record appended. -/
theorem C4_create_validation (now : Int) (body : Body) (db : Cities) :
    (((CityController.create now body db).1.status = 400 ∧
        ∃ m, (CityController.create now body db).1.body =
          Payload.failure "Validation Error" m) ↔
      (MissingOrBlank body.name ∨ MissingOrBlank body.country)) ∧
    ((MissingOrBlank body.name ∨ MissingOrBlank body.country) →
      (CityController.create now body db).2 = db) ∧
    (¬ (MissingOrBlank body.name ∨ MissingOrBlank body.country) →
      (CityController.create now body db).1.status = 201 ∧
      (CityController.create now body db).2.length = db.length + 1 ∧
      ∃ c, (CityController.create now body db).2 = db ++ [c]) := by
  have valid : ¬ (MissingOrBlank body.name ∨ MissingOrBlank body.country) →
      ∃ s t, CityController.create now body db =
        ({ status := 201,
           body := Payload.city { id := now, name := trim s, country := trim t } },
          db ++ [{ id := now, name := trim s, country := trim t }]) := by
    intro h
    rw [not_or] at h
    obtain ⟨s, hn, hs⟩ := (not_missingOrBlank_iff _).1 h.1
    obtain ⟨t, hc, ht⟩ := (not_missingOrBlank_iff _).1 h.2
    exact ⟨s, t, create_of_valid now body db s t hn hs hc ht⟩
  refine ⟨⟨?_, ?_⟩, ?_, ?_⟩
  · intro h
    by_contra hv
    obtain ⟨s, t, e⟩ := valid hv
    rw [e] at h
    simp at h
  · intro h
    exact ⟨(create_of_invalid now body db h).1, (create_of_invalid now body db h).2.1⟩
  · intro h
    exact (create_of_invalid now body db h).2.2
  · intro h
    obtain ⟨s, t, e⟩ := valid h
    rw [e]
    exact ⟨rfl, by simp, _, rfl⟩

/-- C5. Update overwrites only the supplied fields: when the store holds a city
with the id and every supplied field is a string that is not blank (at least one
being supplied), the update handler answers 200 with the updated city; the store
afterwards is the store before with the first city of that id replaced, at the same
position and with the same id, by the city whose supplied fields are the trimmed
supplied values and whose other field is the previous one; every other city is
unchanged. -/
theorem C5_update_overwrites_supplied (id : ParsedId) (body : Body) (db : Cities)
    (hex : ∃ c ∈ db, strictEquals c.id id = true)
    (hn : AbsentOrText body.name) (hc : AbsentOrText body.country)
    (hsome : body.name ≠ JsValue.undefined ∨ body.country ≠ JsValue.undefined) :
    ∃ pre c post,
      db = pre ++ c :: post ∧
      (∀ x ∈ pre, strictEquals x.id id = false) ∧
      strictEquals c.id id = true ∧
      CityController.update id body db =
        ({ status := 200,
           body := Payload.city { id := c.id, name := suppliedOr body.name c.name,
                                  country := suppliedOr body.country c.country } },
          pre ++ { id := c.id, name := suppliedOr body.name c.name,
                   country := suppliedOr body.country c.country } :: post) := by
  obtain ⟨pre, c, post, e, hpre, hid⟩ :=
    exists_first_split (fun x => strictEquals x.id id) db hex
  refine ⟨pre, c, post, e, hpre, hid, ?_⟩
  have hguard : (!body.name.truthy && !body.country.truthy) = false := by
    rcases hsome with h | h
    · simp [truthy_of_absentOrText _ hn h]
    · simp [truthy_of_absentOrText _ hc h]
  have hrepo := repository_update_first id { name := body.name, country := body.country }
    hn hc pre c post hpre hid
  simp only [CityController.update, hguard, e, hrepo]
  rfl

/-- C5 at a concrete request: the second of two cities is updated and only the
name is supplied. The hypotheses hold there and so does the conclusion. -/
theorem C5_update_overwrites_supplied_witness :
    (∃ c ∈ ([⟨1, "Oslo".toList, "Norway".toList⟩, ⟨2, "Rome".toList, "Italy".toList⟩] : Cities),
      strictEquals c.id (ParsedId.int 2) = true) ∧
    AbsentOrText (JsValue.string " Roma ".toList) ∧
    AbsentOrText JsValue.undefined ∧
    ∃ pre c post,
      ([⟨1, "Oslo".toList, "Norway".toList⟩, ⟨2, "Rome".toList, "Italy".toList⟩] : Cities) =
        pre ++ c :: post ∧
      (∀ x ∈ pre, strictEquals x.id (ParsedId.int 2) = false) ∧
      strictEquals c.id (ParsedId.int 2) = true ∧
      CityController.update (ParsedId.int 2)
          { name := JsValue.string " Roma ".toList, country := JsValue.undefined }
          [⟨1, "Oslo".toList, "Norway".toList⟩, ⟨2, "Rome".toList, "Italy".toList⟩] =
        ({ status := 200,
           body := Payload.city
             { id := c.id,
               name := suppliedOr (JsValue.string " Roma ".toList) c.name,
               country := suppliedOr JsValue.undefined c.country } },
          pre ++ { id := c.id,
                   name := suppliedOr (JsValue.string " Roma ".toList) c.name,
                   country := suppliedOr JsValue.undefined c.country } :: post) :=
  ⟨⟨⟨2, "Rome".toList, "Italy".toList⟩, by decide, by decide⟩,
    Or.inr ⟨" Roma ".toList, rfl, by decide⟩,
    Or.inl rfl,
    C5_update_overwrites_supplied (ParsedId.int 2)
      { name := JsValue.string " Roma ".toList, country := JsValue.undefined }
      [⟨1, "Oslo".toList, "Norway".toList⟩, ⟨2, "Rome".toList, "Italy".toList⟩]
      ⟨⟨2, "Rome".toList, "Italy".toList⟩, by decide, by decide⟩
      (Or.inr ⟨" Roma ".toList, rfl, by decide⟩)
      (Or.inl rfl)
      (Or.inl (by decide))⟩

/-- C8. Delete removes exactly one record and keeps the order: when the store
holds a city with the id, the delete handler answers 200 with the message and the
id, and the store afterwards is the store before without the first city of that
id, every other city being kept as it was and where it was relative to the
others. -/
theorem C8_delete_removes_first (id : ParsedId) (db : Cities)
    (hex : ∃ c ∈ db, strictEquals c.id id = true) :
    ∃ pre c post,
      db = pre ++ c :: post ∧
      (∀ x ∈ pre, strictEquals x.id id = false) ∧
      strictEquals c.id id = true ∧
      CityController.delete id db =
        ({ status := 200, body := Payload.deleted "City deleted successfully" id },
          pre ++ post) := by
  obtain ⟨pre, c, post, e, hpre, hid⟩ :=
    exists_first_split (fun x => strictEquals x.id id) db hex
  refine ⟨pre, c, post, e, hpre, hid, ?_⟩
  simp only [CityController.delete, CityRepository.delete, e,
    findIndex_first (fun x => strictEquals x.id id) pre c post hpre hid, eraseIdx_first]

/-- C8 at a concrete request: the middle city of three is deleted. The hypothesis
holds there and so does the conclusion. -/
theorem C8_delete_removes_first_witness :
    (∃ c ∈ ([⟨1, "Oslo".toList, "Norway".toList⟩, ⟨2, "Rome".toList, "Italy".toList⟩,
        ⟨3, "Lima".toList, "Peru".toList⟩] : Cities),
      strictEquals c.id (ParsedId.int 2) = true) ∧
    ∃ pre c post,
      ([⟨1, "Oslo".toList, "Norway".toList⟩, ⟨2, "Rome".toList, "Italy".toList⟩,
        ⟨3, "Lima".toList, "Peru".toList⟩] : Cities) = pre ++ c :: post ∧
      (∀ x ∈ pre, strictEquals x.id (ParsedId.int 2) = false) ∧
      strictEquals c.id (ParsedId.int 2) = true ∧
      CityController.delete (ParsedId.int 2)
          [⟨1, "Oslo".toList, "Norway".toList⟩, ⟨2, "Rome".toList, "Italy".toList⟩,
           ⟨3, "Lima".toList, "Peru".toList⟩] =
        ({ status := 200,
           body := Payload.deleted "City deleted successfully" (ParsedId.int 2) },
          pre ++ post) :=
  ⟨⟨⟨2, "Rome".toList, "Italy".toList⟩, by decide, by decide⟩,
    C8_delete_removes_first (ParsedId.int 2)
      [⟨1, "Oslo".toList, "Norway".toList⟩, ⟨2, "Rome".toList, "Italy".toList⟩,
       ⟨3, "Lima".toList, "Peru".toList⟩]
      ⟨⟨2, "Rome".toList, "Italy".toList⟩, by decide, by decide⟩⟩

/-- C1. Create then get, evaluated at two create requests served at the same clock
reading 5, starting from the empty store: the second create answers 201 with the
trimmed city Rome, Italy under id 5, and the following get of id 5 answers 200
with the city of the first create, Oslo, Norway, not with the one just created. -/
theorem C1_create_then_get_same_clock :
    (CityController.create 5
        { name := JsValue.string " Rome ".toList, country := JsValue.string " Italy ".toList }
        (CityController.create 5
          { name := JsValue.string "Oslo".toList, country := JsValue.string "Norway".toList }
          emptyDb).2).1 =
      { status := 201, body := Payload.city ⟨5, "Rome".toList, "Italy".toList⟩ } ∧
    (CityController.getOne (ParsedId.int 5)
        (CityController.create 5
          { name := JsValue.string " Rome ".toList, country := JsValue.string " Italy ".toList }
          (CityController.create 5
            { name := JsValue.string "Oslo".toList, country := JsValue.string "Norway".toList }
            emptyDb).2).2).1 =
      { status := 200, body := Payload.city ⟨5, "Oslo".toList, "Norway".toList⟩ } := by
  decide

/-- C2. Id uniqueness, evaluated at a create served at clock reading 5 on a store
whose only city has id 5: the ids are pairwise distinct before the request, the
create answers 201, and the ids are not pairwise distinct afterwards. -/
theorem C2_create_same_clock_duplicates_id :
    (ids [⟨5, "Oslo".toList, "Norway".toList⟩]).Nodup ∧
    (CityController.create 5
        { name := JsValue.string "Rome".toList, country := JsValue.string "Italy".toList }
        [⟨5, "Oslo".toList, "Norway".toList⟩]).1.status = 201 ∧
    ¬ (ids (CityController.create 5
        { name := JsValue.string "Rome".toList, country := JsValue.string "Italy".toList }
        [⟨5, "Oslo".toList, "Norway".toList⟩]).2).Nodup := by
  decide

/-- C3. Non-blank fields, evaluated at an update whose name is a single space: the
stored city is well formed before the request, the update answers 200, and the
stored city has the empty name afterwards. -/
theorem C3_update_blank_name_stored :
    (∀ c ∈ ([⟨1, "Rome".toList, "Italy".toList⟩] : Cities), WellFormed c) ∧
    CityController.update (ParsedId.int 1)
        { name := JsValue.string " ".toList, country := JsValue.undefined }
        [⟨1, "Rome".toList, "Italy".toList⟩] =
      ({ status := 200, body := Payload.city ⟨1, [], "Italy".toList⟩ },
        [⟨1, [], "Italy".toList⟩]) ∧
    ¬ (∀ c ∈ (CityController.update (ParsedId.int 1)
        { name := JsValue.string " ".toList, country := JsValue.undefined }
        [⟨1, "Rome".toList, "Italy".toList⟩]).2, WellFormed c) := by
  decide

/-- C6. No partial success, evaluated at an update with a valid name and a numeric
country on a stored id: the answer is 500 from the global error handler and the
store differs from the store before the request, the name having been
overwritten. -/
theorem C6_update_exception_after_assignment :
    CityController.update (ParsedId.int 1)
        { name := JsValue.string "Paris".toList, country := JsValue.number 5 }
        [⟨1, "Rome".toList, "Italy".toList⟩] =
      ({ status := 500,
         body := Payload.failure "Internal Server Error"
           "Something went wrong on the server." },
        [⟨1, "Paris".toList, "Italy".toList⟩]) ∧
    (CityController.update (ParsedId.int 1)
        { name := JsValue.string "Paris".toList, country := JsValue.number 5 }
        [⟨1, "Rome".toList, "Italy".toList⟩]).2 ≠ [⟨1, "Rome".toList, "Italy".toList⟩] := by
  decide

/-- C7. Malformed update fields, evaluated at an update whose name is the number
5: on a stored id the answer is 500 from the global error handler, on an id that
is not stored it is 404, and on a stored id with the name 0 and a valid country
it is 200; none of the three is a 400. -/
theorem C7_update_non_string_name :
    (CityController.update (ParsedId.int 1)
        { name := JsValue.number 5, country := JsValue.undefined }
        [⟨1, "Rome".toList, "Italy".toList⟩]).1 =
      { status := 500,
        body := Payload.failure "Internal Server Error"
          "Something went wrong on the server." } ∧
    (CityController.update (ParsedId.int 2)
        { name := JsValue.number 5, country := JsValue.undefined }
        [⟨1, "Rome".toList, "Italy".toList⟩]).1.status = 404 ∧
    (CityController.update (ParsedId.int 1)
        { name := JsValue.number 0, country := JsValue.string "Italia".toList }
        [⟨1, "Rome".toList, "Italy".toList⟩]).1.status = 200 := by
  decide

/-- C9. Delete then get, evaluated after two creates served at the same clock
reading 5 from the empty store: the delete of id 5 answers 200 and the get of id
5 issued right after it answers 200 as well, with the city of the second
create. -/
theorem C9_delete_then_get_same_clock :
    (CityController.delete (ParsedId.int 5)
        (createAll
          [(5, { name := JsValue.string "Oslo".toList, country := JsValue.string "Norway".toList }),
           (5, { name := JsValue.string "Rome".toList, country := JsValue.string "Italy".toList })]
          emptyDb).2).1.status = 200 ∧
    (CityController.getOne (ParsedId.int 5)
        (CityController.delete (ParsedId.int 5)
          (createAll
            [(5, { name := JsValue.string "Oslo".toList,
                   country := JsValue.string "Norway".toList }),
             (5, { name := JsValue.string "Rome".toList,
                   country := JsValue.string "Italy".toList })]
            emptyDb).2).2).1 =
      { status := 200, body := Payload.city ⟨5, "Rome".toList, "Italy".toList⟩ } := by
  decide

/-- C10. List after N creates and one delete, evaluated at N = 2 with both creates
served at clock reading 5: both creates answer 201 with id 5, the delete of id 5
answers 200, and the list returned afterwards has length 1 and still holds a city
with id 5. -/
theorem C10_list_after_same_clock_creates :
    (createAll
        [(5, { name := JsValue.string "Oslo".toList, country := JsValue.string "Norway".toList }),
         (5, { name := JsValue.string "Rome".toList, country := JsValue.string "Italy".toList })]
        emptyDb).1 =
      [{ status := 201, body := Payload.city ⟨5, "Oslo".toList, "Norway".toList⟩ },
       { status := 201, body := Payload.city ⟨5, "Rome".toList, "Italy".toList⟩ }] ∧
    (CityController.delete (ParsedId.int 5)
        (createAll
          [(5, { name := JsValue.string "Oslo".toList,
                 country := JsValue.string "Norway".toList }),
           (5, { name := JsValue.string "Rome".toList,
                 country := JsValue.string "Italy".toList })]
          emptyDb).2).1.status = 200 ∧
    (CityController.getAll
        (CityController.delete (ParsedId.int 5)
          (createAll
            [(5, { name := JsValue.string "Oslo".toList,
                   country := JsValue.string "Norway".toList }),
             (5, { name := JsValue.string "Rome".toList,
                   country := JsValue.string "Italy".toList })]
            emptyDb).2).2).1 =
      { status := 200, body := Payload.cities [⟨5, "Rome".toList, "Italy".toList⟩] } := by
  decide

/-! ## Lookup, deletion of unknown ids, insertion order, update validation -/

theorem truthy_eq_false_iff (v : JsValue) : v.truthy = false ↔ Falsy v := by
  cases v with
  | undefined => simp [JsValue.truthy, Falsy]
  | null => simp [JsValue.truthy, Falsy]
  | bool b => cases b <;> simp [JsValue.truthy, Falsy]
  | number n => simp [JsValue.truthy, Falsy]
  | string s => cases s <;> simp [JsValue.truthy, Falsy]
  | object => simp [JsValue.truthy, Falsy]
  | array => simp [JsValue.truthy, Falsy]

/-- An update request with a truthy field, for an id that no stored city has,
answers 404 and leaves the store as it was. -/
theorem update_unknown_id_of_truthy (id : ParsedId) (body : Body) (db : Cities)
    (hid : ∀ c ∈ db, strictEquals c.id id = false)
    (ht : body.name.truthy = true ∨ body.country.truthy = true) :
    CityController.update id body db =
      ({ status := 404, body := Payload.failure "Resource Not Found" "City not found." },
        db) := by
  have hg : (!body.name.truthy && !body.country.truthy) = false := by
    rcases ht with h | h <;> simp [h]
  have hr : CityRepository.update id { name := body.name, country := body.country } db =
      (Except.ok none, db) := by
    simp only [CityRepository.update,
      findIndex_eq_none (fun x => strictEquals x.id id) db hid]
  simp only [CityController.update, hg, hr]
  rfl

/-- The two outcomes of a get request: 404 when no stored city has the id, 200
with the first city of the id otherwise; the store is the same in both. -/
theorem getOne_cases (id : ParsedId) (db : Cities) :
    ((∀ x ∈ db, strictEquals x.id id = false) ∧
      CityController.getOne id db =
        ({ status := 404,
           body := Payload.failure "Resource Not Found"
             ("City with ID " ++ id.text ++ " does not exist.") }, db)) ∨
    ∃ pre c post, db = pre ++ c :: post ∧
      (∀ x ∈ pre, strictEquals x.id id = false) ∧ strictEquals c.id id = true ∧
      CityController.getOne id db = ({ status := 200, body := Payload.city c }, db) := by
  by_cases hex : ∃ c ∈ db, strictEquals c.id id = true
  · obtain ⟨pre, c, post, e, hpre, hid⟩ :=
      exists_first_split (fun x => strictEquals x.id id) db hex
    refine Or.inr ⟨pre, c, post, e, hpre, hid, ?_⟩
    have hfind : CityRepository.findById id db = some c := by
      rw [e]
      exact find?_first (fun x => strictEquals x.id id) pre c post hpre hid
    simp only [CityController.getOne, hfind]
  · have hall : ∀ x ∈ db, strictEquals x.id id = false := by
      intro x hx
      by_contra hx1
      exact hex ⟨x, hx, by simpa using hx1⟩
    refine Or.inl ⟨hall, ?_⟩
    have hfind : CityRepository.findById id db = none := by
      unfold CityRepository.findById
      rw [List.find?_eq_none]
      intro x hx
      simp [hall x hx]
    simp only [CityController.getOne, hfind]

/-- C11. Update of an id that is not stored: when no stored city has the id and
the body supplies a non-empty name or a non-empty country, the update handler
answers 404 with an error and a message, and the store is unchanged. -/
theorem C11_update_unknown_id (id : ParsedId) (body : Body) (db : Cities)
    (hid : ∀ c ∈ db, strictEquals c.id id = false)
    (hsup : (∃ s, body.name = JsValue.string s ∧ s ≠ []) ∨
      (∃ s, body.country = JsValue.string s ∧ s ≠ [])) :
    CityController.update id body db =
      ({ status := 404, body := Payload.failure "Resource Not Found" "City not found." },
        db) := by
  apply update_unknown_id_of_truthy id body db hid
  rcases hsup with ⟨s, hs, hne⟩ | ⟨s, hs, hne⟩
  · left
    rw [hs]
    simp [JsValue.truthy, hne]
  · right
    rw [hs]
    simp [JsValue.truthy, hne]

/-- C11 at a concrete request: id 7 on a store that holds only id 1, with a name
supplied. -/
theorem C11_update_unknown_id_witness :
    (∀ c ∈ ([⟨1, "Rome".toList, "Italy".toList⟩] : Cities),
      strictEquals c.id (ParsedId.int 7) = false) ∧
    CityController.update (ParsedId.int 7)
        { name := JsValue.string "Roma".toList, country := JsValue.undefined }
        [⟨1, "Rome".toList, "Italy".toList⟩] =
      ({ status := 404, body := Payload.failure "Resource Not Found" "City not found." },
        [⟨1, "Rome".toList, "Italy".toList⟩]) :=
  ⟨by decide,
    C11_update_unknown_id (ParsedId.int 7)
      { name := JsValue.string "Roma".toList, country := JsValue.undefined }
      [⟨1, "Rome".toList, "Italy".toList⟩] (by decide)
      (Or.inl ⟨"Roma".toList, rfl, by decide⟩)⟩

/-- C12. Get by id: for every store and every integer id the store is unchanged;
when a stored city has the id, the get handler answers 200 with the first such
city in store order; and it answers 404 with an error and a message exactly when
no stored city has the id. -/
theorem C12_get_by_id (i : Int) (db : Cities) :
    (CityController.getOne (ParsedId.int i) db).2 = db ∧
    ((∃ c ∈ db, c.id = i) →
      ∃ pre c post, db = pre ++ c :: post ∧ (∀ x ∈ pre, x.id ≠ i) ∧ c.id = i ∧
        (CityController.getOne (ParsedId.int i) db).1 =
          { status := 200, body := Payload.city c }) ∧
    (((CityController.getOne (ParsedId.int i) db).1.status = 404 ∧
        ∃ e m, (CityController.getOne (ParsedId.int i) db).1.body = Payload.failure e m) ↔
      ∀ c ∈ db, c.id ≠ i) := by
  rcases getOne_cases (ParsedId.int i) db with ⟨hall, e⟩ | ⟨pre, c, post, hdb, hpre, hid, e⟩
  · have hne : ∀ c ∈ db, c.id ≠ i := fun c hc => by
      simpa [strictEquals] using hall c hc
    refine ⟨by rw [e], ?_, ?_⟩
    · rintro ⟨c, hc, hci⟩
      exact absurd hci (hne c hc)
    · rw [e]
      exact ⟨fun _ => hne, fun _ => ⟨rfl, _, _, rfl⟩⟩
  · have hci : c.id = i := by simpa [strictEquals] using hid
    refine ⟨by rw [e], ?_, ?_⟩
    · intro _
      refine ⟨pre, c, post, hdb, ?_, hci, by rw [e]⟩
      intro x hx
      simpa [strictEquals] using hpre x hx
    · rw [e]
      constructor
      · intro h
        simp at h
      · intro h
        exact absurd hci (h c (by rw [hdb]; simp))

/-- C13. Delete of an id that is not stored: when no stored city has the id the
delete handler answers 404 and the store is unchanged; and it answers 200 exactly
when some stored city has the id. -/
theorem C13_delete_unknown_id (id : ParsedId) (db : Cities) :
    ((∀ c ∈ db, strictEquals c.id id = false) →
      (CityController.delete id db).1.status = 404 ∧
      (CityController.delete id db).2 = db) ∧
    ((CityController.delete id db).1.status = 200 ↔
      ∃ c ∈ db, strictEquals c.id id = true) := by
  rcases delete_cases id db with ⟨hall, e⟩ | ⟨pre, c, post, hdb, hpre, hid, e⟩
  · rw [e]
    refine ⟨fun _ => ⟨rfl, rfl⟩, ?_, ?_⟩
    · intro h
      simp at h
    · rintro ⟨c, hc, hci⟩
      rw [hall c hc] at hci
      cases hci
  · rw [e]
    refine ⟨?_, fun _ => ⟨c, by rw [hdb]; simp, hid⟩, fun _ => rfl⟩
    intro hall
    have := hall c (by rw [hdb]; simp)
    rw [hid] at this
    cases this

/-- C14. Insertion order: after a create that answers 201, the store is the store
before with the returned city appended as its last element; and the list handler
answers 200 with the whole store, in store order, leaving it unchanged. -/
theorem C14_insertion_order (now : Int) (body : Body) (db : Cities)
    (h : (CityController.create now body db).1.status = 201) :
    (∃ c, (CityController.create now body db).1.body = Payload.city c ∧
      (CityController.create now body db).2 = db ++ [c]) ∧
    CityController.getAll (CityController.create now body db).2 =
      ({ status := 200, body := Payload.cities (CityController.create now body db).2 },
        (CityController.create now body db).2) := by
  refine ⟨?_, rfl⟩
  rcases create_store_cases now body db with ⟨e, _⟩ | ⟨s, t, _, _, _, _, e⟩
  · rw [e] at h
    exact absurd h (by decide)
  · rw [e]
    exact ⟨_, rfl, rfl⟩

/-- C14 at a concrete request: Rome is appended after Oslo. -/
theorem C14_insertion_order_witness :
    (CityController.create 9
        { name := JsValue.string " Rome ".toList, country := JsValue.string "Italy".toList }
        [⟨5, "Oslo".toList, "Norway".toList⟩]).1.status = 201 ∧
    (∃ c, (CityController.create 9
          { name := JsValue.string " Rome ".toList, country := JsValue.string "Italy".toList }
          [⟨5, "Oslo".toList, "Norway".toList⟩]).1.body = Payload.city c ∧
      (CityController.create 9
          { name := JsValue.string " Rome ".toList, country := JsValue.string "Italy".toList }
          [⟨5, "Oslo".toList, "Norway".toList⟩]).2 =
        [⟨5, "Oslo".toList, "Norway".toList⟩] ++ [c]) ∧
    CityController.getAll (CityController.create 9
        { name := JsValue.string " Rome ".toList, country := JsValue.string "Italy".toList }
        [⟨5, "Oslo".toList, "Norway".toList⟩]).2 =
      ({ status := 200,
         body := Payload.cities (CityController.create 9
          { name := JsValue.string " Rome ".toList, country := JsValue.string "Italy".toList }
          [⟨5, "Oslo".toList, "Norway".toList⟩]).2 },
        (CityController.create 9
          { name := JsValue.string " Rome ".toList, country := JsValue.string "Italy".toList }
          [⟨5, "Oslo".toList, "Norway".toList⟩]).2) :=
  ⟨by decide,
    C14_insertion_order 9
      { name := JsValue.string " Rome ".toList, country := JsValue.string "Italy".toList }
      [⟨5, "Oslo".toList, "Norway".toList⟩] (by decide)⟩

/-- C17. Update validation precedes lookup: for every store, id and body, the
update handler answers 400 with the error "Validation Error" exactly when the
name and the country are both absent or falsy; in that case the store is
unchanged and the answer is not a 404, whether or not a city has the id. -/
theorem C17_update_validation_first (id : ParsedId) (body : Body) (db : Cities) :
    (((CityController.update id body db).1.status = 400 ∧
        ∃ m, (CityController.update id body db).1.body =
          Payload.failure "Validation Error" m) ↔
      (Falsy body.name ∧ Falsy body.country)) ∧
    ((Falsy body.name ∧ Falsy body.country) →
      (CityController.update id body db).2 = db ∧
      (CityController.update id body db).1.status ≠ 404) := by
  have hguard : (Falsy body.name ∧ Falsy body.country) ↔
      (!body.name.truthy && !body.country.truthy) = true := by
    rw [← truthy_eq_false_iff, ← truthy_eq_false_iff]
    simp
  have h400 : (!body.name.truthy && !body.country.truthy) = true →
      CityController.update id body db =
        ({ status := 400,
           body := Payload.failure "Validation Error"
             "Please provide at least one field to update (name or country)." }, db) := by
    intro hg
    simp [CityController.update, hg]
  refine ⟨⟨?_, ?_⟩, ?_⟩
  · rintro ⟨hs, _⟩
    rw [hguard]
    rcases update_cases id body db with ⟨hg, _, _⟩ | ⟨_, _, e, _⟩ |
      ⟨_, pre, c, post, n, k, _, _, _, _, _, e | e⟩
    · exact hg
    · rw [e] at hs
      exact absurd hs (by decide)
    · rw [e] at hs
      simp [globalErrorHandler] at hs
    · rw [e] at hs
      simp at hs
  · intro hf
    rw [h400 (hguard.1 hf)]
    exact ⟨rfl, _, rfl⟩
  · intro hf
    rw [h400 (hguard.1 hf)]
    exact ⟨rfl, by simp⟩

/-! ## Client fallback -/

/-- The result of `fetchWithFallback` in terms of the outcomes at the two URLs. -/
theorem fetchWithFallback_eq (fetch : String → FetchOutcome) (urlPath : String) :
    fetchWithFallback fetch urlPath =
      match fetch ("http://localhost:8000/api/cities" ++ urlPath) with
      | FetchOutcome.resolved res =>
        if res.ok then (Except.ok res, ["http://localhost:8000/api/cities" ++ urlPath])
        else
          match fetch ("http://localhost:3000/cities" ++ urlPath) with
          | FetchOutcome.resolved res2 =>
            if res2.ok then
              (Except.ok res2, ["http://localhost:8000/api/cities" ++ urlPath,
                "http://localhost:3000/cities" ++ urlPath])
            else
              (Except.error (ClientError.failedAt ("http://localhost:3000/cities" ++ urlPath)),
                ["http://localhost:8000/api/cities" ++ urlPath,
                  "http://localhost:3000/cities" ++ urlPath])
          | FetchOutcome.rejected m =>
            (Except.error (ClientError.network m),
              ["http://localhost:8000/api/cities" ++ urlPath,
                "http://localhost:3000/cities" ++ urlPath])
      | FetchOutcome.rejected _ =>
        match fetch ("http://localhost:3000/cities" ++ urlPath) with
        | FetchOutcome.resolved res2 =>
          if res2.ok then
            (Except.ok res2, ["http://localhost:8000/api/cities" ++ urlPath,
              "http://localhost:3000/cities" ++ urlPath])
          else
            (Except.error (ClientError.failedAt ("http://localhost:3000/cities" ++ urlPath)),
              ["http://localhost:8000/api/cities" ++ urlPath,
                "http://localhost:3000/cities" ++ urlPath])
        | FetchOutcome.rejected m =>
          (Except.error (ClientError.network m),
            ["http://localhost:8000/api/cities" ++ urlPath,
              "http://localhost:3000/cities" ++ urlPath]) := by
  unfold fetchWithFallback API_BASES
  simp only [fetchLoop]
  cases fetch ("http://localhost:8000/api/cities" ++ urlPath) with
  | resolved res =>
    cases hok : res.ok with
    | true => simp
    | false =>
      cases fetch ("http://localhost:3000/cities" ++ urlPath) with
      | resolved res2 => cases hok2 : res2.ok <;> simp
      | rejected m => simp
  | rejected m1 =>
    cases fetch ("http://localhost:3000/cities" ++ urlPath) with
    | resolved res2 => cases hok2 : res2.ok <;> simp
    | rejected m => simp

/-- C15. Client fallback: the helper requests the Laravel URL first. When that
response is ok it is returned and the Node.js URL is not requested. When the
Laravel request yields no ok response, the Node.js URL is requested and its
response is returned when ok. When neither yields an ok response the helper
throws the error of the Node.js request, the last one tried. It throws exactly
when no base yields an ok response. -/
theorem C15_fetchWithFallback (fetch : String → FetchOutcome) (urlPath : String) :
    (∀ res, fetch ("http://localhost:8000/api/cities" ++ urlPath) = FetchOutcome.resolved res →
      res.ok = true →
      fetchWithFallback fetch urlPath =
        (Except.ok res, ["http://localhost:8000/api/cities" ++ urlPath])) ∧
    ((fetch ("http://localhost:8000/api/cities" ++ urlPath)).isOk = false →
      ∀ res, fetch ("http://localhost:3000/cities" ++ urlPath) = FetchOutcome.resolved res →
        res.ok = true →
        fetchWithFallback fetch urlPath =
          (Except.ok res, ["http://localhost:8000/api/cities" ++ urlPath,
            "http://localhost:3000/cities" ++ urlPath])) ∧
    ((fetch ("http://localhost:8000/api/cities" ++ urlPath)).isOk = false →
      (fetch ("http://localhost:3000/cities" ++ urlPath)).isOk = false →
      fetchWithFallback fetch urlPath =
        (Except.error (errorOf ("http://localhost:3000/cities" ++ urlPath)
            (fetch ("http://localhost:3000/cities" ++ urlPath))),
          ["http://localhost:8000/api/cities" ++ urlPath,
            "http://localhost:3000/cities" ++ urlPath])) ∧
    ((∃ e, (fetchWithFallback fetch urlPath).1 = Except.error e) ↔
      ((fetch ("http://localhost:8000/api/cities" ++ urlPath)).isOk = false ∧
        (fetch ("http://localhost:3000/cities" ++ urlPath)).isOk = false)) := by
  rw [fetchWithFallback_eq]
  cases fetch ("http://localhost:8000/api/cities" ++ urlPath) with
  | resolved res =>
    cases hok : res.ok with
    | true =>
      refine ⟨?_, ?_, ?_, ?_⟩
      · intro r hr _
        cases hr
        simp [hok]
      · intro h
        simp [FetchOutcome.isOk, hok] at h
      · intro h
        simp [FetchOutcome.isOk, hok] at h
      · simp [FetchOutcome.isOk, hok]
    | false =>
      cases fetch ("http://localhost:3000/cities" ++ urlPath) with
      | resolved res2 =>
        cases hok2 : res2.ok with
        | true =>
          refine ⟨?_, ?_, ?_, ?_⟩
          · intro r hr hrok
            cases hr
            rw [hok] at hrok
            cases hrok
          · intro _ r hr _
            cases hr
            simp [hok, hok2]
          · intro _ h
            simp [FetchOutcome.isOk, hok2] at h
          · simp [FetchOutcome.isOk, hok, hok2]
        | false =>
          refine ⟨?_, ?_, ?_, ?_⟩
          · intro r hr hrok
            cases hr
            rw [hok] at hrok
            cases hrok
          · intro _ r hr hrok
            cases hr
            rw [hok2] at hrok
            cases hrok
          · intro _ _
            simp [hok, hok2, errorOf]
          · simp [FetchOutcome.isOk, hok, hok2]
      | rejected m =>
        refine ⟨?_, ?_, ?_, ?_⟩
        · intro r hr hrok
          cases hr
          rw [hok] at hrok
          cases hrok
        · intro _ r hr _
          cases hr
        · intro _ _
          simp [hok, errorOf]
        · simp [FetchOutcome.isOk, hok]
  | rejected m1 =>
    cases fetch ("http://localhost:3000/cities" ++ urlPath) with
    | resolved res2 =>
      cases hok2 : res2.ok with
      | true =>
        refine ⟨?_, ?_, ?_, ?_⟩
        · intro r hr _
          cases hr
        · intro _ r hr _
          cases hr
          simp [hok2]
        · intro _ h
          simp [FetchOutcome.isOk, hok2] at h
        · simp [FetchOutcome.isOk, hok2]
      | false =>
        refine ⟨?_, ?_, ?_, ?_⟩
        · intro r hr _
          cases hr
        · intro _ r hr hrok
          cases hr
          rw [hok2] at hrok
          cases hrok
        · intro _ _
          simp [hok2, errorOf]
        · simp [FetchOutcome.isOk, hok2]
    | rejected m =>
      refine ⟨?_, ?_, ?_, ?_⟩
      · intro r hr _
        cases hr
      · intro _ r hr _
        cases hr
      · intro _ _
        simp [errorOf]
      · simp [FetchOutcome.isOk]

/-! ## Laravel backend: validation, lookup, update, removal, ids -/

theorem phpTrim_nil : phpTrim [] = [] := rfl

theorem requiredString_of_clean {s : JsString} (h : Clean s) :
    requiredString (JsValue.string s) = some s := by
  have hne : phpTrim s ≠ [] := by
    rw [h.2.2]
    exact h.1
  simp [requiredString, List.isEmpty_iff, hne]

theorem requiredString_of_unusable {v : JsValue} (h : Unusable v) :
    requiredString v = none := by
  rcases h with h | ⟨s, rfl, _, hp⟩
  · cases v with
    | string s => exact absurd rfl h
    | undefined => rfl
    | null => rfl
    | bool b => rfl
    | number n => rfl
    | object => rfl
    | array => rfl
  · simp [requiredString, hp]

theorem requiredString_of_falsy {v : JsValue} (h : Falsy v) : requiredString v = none := by
  rcases h with rfl | rfl | rfl | rfl | rfl <;> rfl

theorem laravel_validate_of_clean (request : Body) (s t : JsString)
    (hn : request.name = JsValue.string s) (hc : request.country = JsValue.string t)
    (hs : Clean s) (ht : Clean t) : Laravel.validate request = some (s, t) := by
  simp [Laravel.validate, hn, hc, requiredString_of_clean hs, requiredString_of_clean ht]

theorem laravel_validate_of_none (request : Body)
    (h : requiredString request.name = none ∨ requiredString request.country = none) :
    Laravel.validate request = none := by
  unfold Laravel.validate
  rcases h with h | h
  · simp [h]
  · rw [h]
    cases requiredString request.name <;> rfl

theorem updateLoop_first (id : Int) (name country : JsString)
    (pre : Cities) (c : City) (post : Cities)
    (hpre : ∀ x ∈ pre, (x.id == id) = false) (hc : (c.id == id) = true) :
    Laravel.updateLoop id name country (pre ++ c :: post) =
      some ({ c with name := name, country := country },
        pre ++ { c with name := name, country := country } :: post) := by
  induction pre with
  | nil => simp [Laravel.updateLoop, hc]
  | cons a l ih =>
    have ha : (a.id == id) = false := hpre a (List.mem_cons_self a l)
    have hl := ih (fun x hx => hpre x (List.mem_cons_of_mem a hx))
    simp [Laravel.updateLoop, ha, hl]

theorem updateLoop_eq_none (id : Int) (name country : JsString) (db : Cities)
    (h : ∀ x ∈ db, (x.id == id) = false) :
    Laravel.updateLoop id name country db = none := by
  induction db with
  | nil => rfl
  | cons a l ih =>
    have ha : (a.id == id) = false := h a (List.mem_cons_self a l)
    have hl := ih (fun x hx => h x (List.mem_cons_of_mem a hx))
    simp [Laravel.updateLoop, ha, hl]

/-- The outcomes of the Laravel `update`: a validation exception with the store
unchanged, 404 with the store unchanged, or 200 with the first city of the id
overwritten in place. -/
theorem laravel_update_cases (request : Body) (id : Int) (db : Cities) :
    (Laravel.validate request = none ∧
      Laravel.CityController.update request id db =
        (LaravelOutcome.validationException, db)) ∨
    (∃ name country, Laravel.validate request = some (name, country) ∧
      (∀ x ∈ db, (x.id == id) = false) ∧
      Laravel.CityController.update request id db =
        (LaravelOutcome.response 404 (LaravelPayload.error "City not found"), db)) ∨
    (∃ name country pre c post, Laravel.validate request = some (name, country) ∧
      db = pre ++ c :: post ∧ (∀ x ∈ pre, (x.id == id) = false) ∧ (c.id == id) = true ∧
      Laravel.CityController.update request id db =
        (LaravelOutcome.response 200
            (LaravelPayload.city { id := c.id, name := name, country := country }),
          pre ++ { id := c.id, name := name, country := country } :: post)) := by
  cases hv : Laravel.validate request with
  | none =>
    exact Or.inl ⟨rfl, by simp [Laravel.CityController.update, hv]⟩
  | some nc =>
    obtain ⟨name, country⟩ := nc
    by_cases hex : ∃ c ∈ db, (fun x : City => x.id == id) c = true
    · obtain ⟨pre, c, post, e, hpre, hid⟩ :=
        exists_first_split (fun x => x.id == id) db hex
      refine Or.inr (Or.inr ⟨name, country, pre, c, post, rfl, e, hpre, hid, ?_⟩)
      simp only [Laravel.CityController.update, hv, e,
        updateLoop_first id name country pre c post hpre hid]
    · have hall : ∀ x ∈ db, (x.id == id) = false := by
        intro x hx
        by_contra hx1
        exact hex ⟨x, hx, by simpa using hx1⟩
      refine Or.inr (Or.inl ⟨name, country, rfl, hall, ?_⟩)
      simp only [Laravel.CityController.update, hv, updateLoop_eq_none id name country db hall]

/-- The outcomes of the Laravel `destroy`: 404 with the store unchanged, or 200
with the first city of the id removed. -/
theorem laravel_destroy_cases (id : Int) (db : Cities) :
    ((∀ x ∈ db, (x.id == id) = false) ∧
      Laravel.CityController.destroy id db =
        (LaravelOutcome.response 404 (LaravelPayload.error "City not found"), db)) ∨
    ∃ pre c post, db = pre ++ c :: post ∧
      (∀ x ∈ pre, (x.id == id) = false) ∧ (c.id == id) = true ∧
      Laravel.CityController.destroy id db =
        (LaravelOutcome.response 200 (LaravelPayload.message "City deleted"), pre ++ post) := by
  by_cases hex : ∃ c ∈ db, (fun x : City => x.id == id) c = true
  · obtain ⟨pre, c, post, e, hpre, hid⟩ :=
      exists_first_split (fun x => x.id == id) db hex
    refine Or.inr ⟨pre, c, post, e, hpre, hid, ?_⟩
    simp only [Laravel.CityController.destroy, e,
      findIndex_first (fun x => x.id == id) pre c post hpre hid, eraseIdx_first]
  · have hall : ∀ x ∈ db, (x.id == id) = false := by
      intro x hx
      by_contra hx1
      exact hex ⟨x, hx, by simpa using hx1⟩
    refine Or.inl ⟨hall, ?_⟩
    simp only [Laravel.CityController.destroy,
      findIndex_eq_none (fun x => x.id == id) db hall]

/-- The outcomes of the Laravel `show`: 404, or 200 with the first city of the
id; the store is unchanged. -/
theorem laravel_show_cases (id : Int) (db : Cities) :
    ((∀ x ∈ db, (x.id == id) = false) ∧
      Laravel.CityController.showCity id db =
        (LaravelOutcome.response 404 (LaravelPayload.error "City not found"), db)) ∨
    ∃ pre c post, db = pre ++ c :: post ∧
      (∀ x ∈ pre, (x.id == id) = false) ∧ (c.id == id) = true ∧
      Laravel.CityController.showCity id db =
        (LaravelOutcome.response 200 (LaravelPayload.city c), db) := by
  by_cases hex : ∃ c ∈ db, (fun x : City => x.id == id) c = true
  · obtain ⟨pre, c, post, e, hpre, hid⟩ :=
      exists_first_split (fun x => x.id == id) db hex
    refine Or.inr ⟨pre, c, post, e, hpre, hid, ?_⟩
    have hfind : List.find? (fun x : City => x.id == id) db = some c := by
      rw [e]
      exact find?_first (fun x => x.id == id) pre c post hpre hid
    simp only [Laravel.CityController.showCity, hfind]
  · have hall : ∀ x ∈ db, (x.id == id) = false := by
      intro x hx
      by_contra hx1
      exact hex ⟨x, hx, by simpa using hx1⟩
    refine Or.inl ⟨hall, ?_⟩
    have hfind : List.find? (fun x : City => x.id == id) db = none := by
      rw [List.find?_eq_none]
      intro x hx
      simp [hall x hx]
    simp only [Laravel.CityController.showCity, hfind]

theorem le_foldl_max (xs : List Int) (x : Int) :
    x ≤ xs.foldl max x ∧ ∀ y ∈ xs, y ≤ xs.foldl max x := by
  induction xs generalizing x with
  | nil => simp
  | cons a l ih =>
    obtain ⟨h1, h2⟩ := ih (max x a)
    refine ⟨le_trans (le_max_left x a) h1, ?_⟩
    intro y hy
    rcases List.mem_cons.1 hy with rfl | hy
    · exact le_trans (le_max_right x y) h1
    · exact h2 y hy

theorem foldl_max_mem (xs : List Int) (x : Int) : xs.foldl max x ∈ x :: xs := by
  induction xs generalizing x with
  | nil => simp
  | cons a l ih =>
    have h := ih (max x a)
    rcases List.mem_cons.1 h with h | h
    · rcases max_choice x a with hm | hm
      · rw [List.foldl_cons, h, hm]
        exact List.mem_cons_self _ _
      · rw [List.foldl_cons, h, hm]
        exact List.mem_cons_of_mem _ (List.mem_cons_self _ _)
    · exact List.mem_cons_of_mem _ (List.mem_cons_of_mem _ h)

/-- On a store whose ids are PHP integers below the greatest one, the id computed
by `store` for a store that is not empty is the greatest stored id plus one. -/
theorem nextId_cons_of_below (a : City) (l : Cities) (hb : BelowIntMax (a :: l)) :
    Laravel.nextId (a :: l) = (l.map City.id).foldl max a.id + 1 := by
  have hm := foldl_max_mem (l.map City.id) a.id
  rw [← List.map_cons] at hm
  obtain ⟨c, hc, hci⟩ := List.mem_map.1 hm
  have hcb := hb c hc
  have hrange : Laravel.PHP_INT_MIN ≤ (l.map City.id).foldl max a.id ∧
      (l.map City.id).foldl max a.id ≤ Laravel.PHP_INT_MAX := by
    rw [← hci]
    exact ⟨hcb.1, le_of_lt hcb.2⟩
  simp only [Laravel.nextId, List.map_cons, Laravel.phpAddOne, hrange, and_self, if_true]

/-- On a store whose ids are PHP integers below the greatest one, the id computed
by `store` is greater than every stored id. -/
theorem lt_nextId (db : Cities) (hb : BelowIntMax db) :
    ∀ c ∈ db, c.id < Laravel.nextId db := by
  intro c hc
  cases db with
  | nil => cases hc
  | cons a l =>
    have hle := le_foldl_max (l.map City.id) a.id
    have : c.id ≤ (l.map City.id).foldl max a.id := by
      rcases List.mem_cons.1 hc with rfl | hc
      · exact hle.1
      · exact hle.2 _ (List.mem_map.2 ⟨c, hc, rfl⟩)
    rw [nextId_cons_of_below a l hb]
    omega

/-- On a store that is not empty and whose ids are PHP integers below the greatest
one, the id computed by `store` is the id of a stored city plus one. -/
theorem nextId_eq_succ_of_mem (db : Cities) (hb : BelowIntMax db) (h : db ≠ []) :
    ∃ c ∈ db, Laravel.nextId db = c.id + 1 := by
  cases db with
  | nil => exact absurd rfl h
  | cons a l =>
    have hm := foldl_max_mem (l.map City.id) a.id
    rw [← List.map_cons] at hm
    obtain ⟨c, hc, hci⟩ := List.mem_map.1 hm
    exact ⟨c, hc, by rw [nextId_cons_of_below a l hb, hci]⟩

/-! ## The two backends side by side -/

theorem strictEquals_int (cid i : Int) : strictEquals cid (ParsedId.int i) = (cid == i) := rfl

/-- The Node update with two clean strings, on a store split at the first city of
the id. -/
theorem node_update_of_clean (i : Int) (body : Body) (s t : JsString)
    (hn : body.name = JsValue.string s) (hc : body.country = JsValue.string t)
    (hs : Clean s) (ht : Clean t) (pre : Cities) (c : City) (post : Cities)
    (hpre : ∀ x ∈ pre, (x.id == i) = false) (hid : (c.id == i) = true) :
    CityController.update (ParsedId.int i) body (pre ++ c :: post) =
      ({ status := 200, body := Payload.city { id := c.id, name := s, country := t } },
        pre ++ { id := c.id, name := s, country := t } :: post) := by
  have hts : trim s ≠ [] := by
    rw [hs.2.1]
    exact hs.1
  have htt : trim t ≠ [] := by
    rw [ht.2.1]
    exact ht.1
  have hguard : (!body.name.truthy && !body.country.truthy) = false := by
    simp [hn, JsValue.truthy, hs.1]
  have hrepo := repository_update_first (ParsedId.int i)
    { name := body.name, country := body.country }
    (Or.inr ⟨s, hn, hts⟩) (Or.inr ⟨t, hc, htt⟩) pre c post hpre hid
  simp only [CityController.update, hguard, hrepo]
  simp only [hn, hc, suppliedOr, hs.2.1, ht.2.1]
  rfl

/-- The controllers as written treat surrounding white space differently: on a
create of " Rome ", Italy the Node controller stores the trimmed name and the
Laravel controller stores the name as it receives it. -/
theorem create_surrounding_space :
    namesOf (CityController.create 9
        { name := JsValue.string " Rome ".toList, country := JsValue.string "Italy".toList }
        emptyDb).2 = [("Rome".toList, "Italy".toList)] ∧
    namesOf (Laravel.CityController.store
        { name := JsValue.string " Rome ".toList, country := JsValue.string "Italy".toList }
        emptyDb).2 = [(" Rome ".toList, "Italy".toList)] := by
  decide

/-- C16, at an update that supplies only the name, on the store Tokyo, New York,
Paris and id 3: the Node backend succeeds and renames the city, the Laravel
backend throws its validation exception and changes nothing, so the two stores
hold different (name, country) sequences afterwards. -/
theorem C16_update_one_field_differs :
    nodeKind (CityController.update (ParsedId.int 3)
        { name := JsValue.string "Roma".toList, country := JsValue.undefined }
        Laravel.cities).1 = Kind.success ∧
    laravelKind (Laravel.CityController.update
        { name := JsValue.string "Roma".toList, country := JsValue.undefined } 3
        Laravel.cities).1 = Kind.validationError ∧
    namesOf (CityController.update (ParsedId.int 3)
        { name := JsValue.string "Roma".toList, country := JsValue.undefined }
        Laravel.cities).2 ≠
      namesOf (Laravel.CityController.update
        { name := JsValue.string "Roma".toList, country := JsValue.undefined } 3
        Laravel.cities).2 := by
  decide

/-- C16, amended. Started from the same store, the two backends agree on every
get and every delete of an integer id: same kind of result, same store afterwards.
On a create they agree when a field is unusable for both (absent, not a string, or
a string that the trimming of each backend empties): both fail with a validation
error and change nothing; and when both fields are clean strings: both succeed and
the stores hold the same (name, country) sequence afterwards. On an update they
agree when both fields are falsy: both fail with a validation error and change
nothing; and when both fields are clean strings: same kind of result, success or
not found, and same store afterwards. -/
theorem C16_backends_agree (i : Int) (body : Body) (db : Cities) :
    (nodeKind (CityController.getOne (ParsedId.int i) db).1 =
        laravelKind (Laravel.CityController.showCity i db).1 ∧
      (CityController.getOne (ParsedId.int i) db).2 =
        (Laravel.CityController.showCity i db).2) ∧
    (nodeKind (CityController.delete (ParsedId.int i) db).1 =
        laravelKind (Laravel.CityController.destroy i db).1 ∧
      (CityController.delete (ParsedId.int i) db).2 =
        (Laravel.CityController.destroy i db).2) ∧
    (∀ now, Unusable body.name ∨ Unusable body.country →
      nodeKind (CityController.create now body db).1 = Kind.validationError ∧
      laravelKind (Laravel.CityController.store body db).1 = Kind.validationError ∧
      (CityController.create now body db).2 = db ∧
      (Laravel.CityController.store body db).2 = db) ∧
    (∀ now s t, body.name = JsValue.string s → body.country = JsValue.string t →
      Clean s → Clean t →
      nodeKind (CityController.create now body db).1 = Kind.success ∧
      laravelKind (Laravel.CityController.store body db).1 = Kind.success ∧
      namesOf (CityController.create now body db).2 =
        namesOf (Laravel.CityController.store body db).2) ∧
    (Falsy body.name → Falsy body.country →
      nodeKind (CityController.update (ParsedId.int i) body db).1 = Kind.validationError ∧
      laravelKind (Laravel.CityController.update body i db).1 = Kind.validationError ∧
      (CityController.update (ParsedId.int i) body db).2 = db ∧
      (Laravel.CityController.update body i db).2 = db) ∧
    (∀ s t, body.name = JsValue.string s → body.country = JsValue.string t →
      Clean s → Clean t →
      nodeKind (CityController.update (ParsedId.int i) body db).1 =
        laravelKind (Laravel.CityController.update body i db).1 ∧
      (CityController.update (ParsedId.int i) body db).2 =
        (Laravel.CityController.update body i db).2) := by
  refine ⟨?_, ?_, ?_, ?_, ?_, ?_⟩
  · rcases getOne_cases (ParsedId.int i) db with ⟨hall, e⟩ | ⟨pre, c, post, hdb, hpre, hid, e⟩
    · rcases laravel_show_cases i db with ⟨_, e2⟩ | ⟨pre2, c2, post2, hdb2, _, hid2, _⟩
      · rw [e, e2]
        exact ⟨by simp [nodeKind, laravelKind], rfl⟩
      · have := hall c2 (by rw [hdb2]; simp)
        rw [strictEquals_int, hid2] at this
        cases this
    · rcases laravel_show_cases i db with ⟨hall2, _⟩ | ⟨pre2, c2, post2, _, _, _, e2⟩
      · have := hall2 c (by rw [hdb]; simp)
        rw [← strictEquals_int, hid] at this
        cases this
      · rw [e, e2]
        exact ⟨by simp [nodeKind, laravelKind], rfl⟩
  · rcases delete_cases (ParsedId.int i) db with ⟨hall, e⟩ | ⟨pre, c, post, hdb, hpre, hid, e⟩
    · have e2 : Laravel.CityController.destroy i db =
          (LaravelOutcome.response 404 (LaravelPayload.error "City not found"), db) := by
        simp only [Laravel.CityController.destroy,
          findIndex_eq_none (fun x => x.id == i) db hall]
      rw [e, e2]
      exact ⟨by simp [nodeKind, laravelKind], rfl⟩
    · have e2 : Laravel.CityController.destroy i db =
          (LaravelOutcome.response 200 (LaravelPayload.message "City deleted"),
            pre ++ post) := by
        simp only [Laravel.CityController.destroy, hdb,
          findIndex_first (fun x => x.id == i) pre c post hpre hid, eraseIdx_first]
      rw [e, e2]
      exact ⟨by simp [nodeKind, laravelKind], rfl⟩
  · intro now hbad
    have hnode : MissingOrBlank body.name ∨ MissingOrBlank body.country := by
      rcases hbad with h | h
      · left
        rcases h with h | ⟨s, hs, hb, _⟩
        · exact Or.inr (Or.inl h)
        · exact Or.inr (Or.inr ⟨s, hs, hb⟩)
      · right
        rcases h with h | ⟨s, hs, hb, _⟩
        · exact Or.inr (Or.inl h)
        · exact Or.inr (Or.inr ⟨s, hs, hb⟩)
    have hlar : Laravel.validate body = none := by
      apply laravel_validate_of_none
      rcases hbad with h | h
      · exact Or.inl (requiredString_of_unusable h)
      · exact Or.inr (requiredString_of_unusable h)
    obtain ⟨h400, _, hsame⟩ := create_of_invalid now body db hnode
    refine ⟨?_, ?_, hsame, ?_⟩
    · simp [nodeKind, h400]
    · simp [Laravel.CityController.store, hlar, laravelKind]
    · simp [Laravel.CityController.store, hlar]
  · intro now s t hn hc hs ht
    have hts : trim s ≠ [] := by
      rw [hs.2.1]
      exact hs.1
    have htt : trim t ≠ [] := by
      rw [ht.2.1]
      exact ht.1
    rw [create_of_valid now body db s t hn hts hc htt]
    simp [nodeKind, laravelKind, Laravel.CityController.store,
      laravel_validate_of_clean body s t hn hc hs ht, namesOf, hs.2.1, ht.2.1]
  · intro hfn hfc
    have hg : (!body.name.truthy && !body.country.truthy) = true := by
      rw [(truthy_eq_false_iff _).2 hfn, (truthy_eq_false_iff _).2 hfc]
      rfl
    have hlar : Laravel.validate body = none :=
      laravel_validate_of_none body (Or.inl (requiredString_of_falsy hfn))
    refine ⟨?_, ?_, ?_, ?_⟩
    · simp [CityController.update, hg, nodeKind]
    · simp [Laravel.CityController.update, hlar, laravelKind]
    · simp [CityController.update, hg]
    · simp [Laravel.CityController.update, hlar]
  · intro s t hn hc hs ht
    have hv := laravel_validate_of_clean body s t hn hc hs ht
    rcases laravel_update_cases body i db with ⟨hnone, _⟩ | ⟨n, k, hsome, hall, e2⟩ |
      ⟨n, k, pre, c, post, hsome, hdb, hpre, hid, e2⟩
    · rw [hv] at hnone
      cases hnone
    · have e := update_unknown_id_of_truthy (ParsedId.int i) body db hall
        (Or.inl (by simp [hn, JsValue.truthy, hs.1]))
      rw [e, e2]
      exact ⟨by simp [nodeKind, laravelKind], rfl⟩
    · rw [hv] at hsome
      cases hsome
      have e := node_update_of_clean i body s t hn hc hs ht pre c post hpre hid
      rw [hdb, e]
      rw [hdb] at e2
      rw [e2]
      exact ⟨by simp [nodeKind, laravelKind], rfl⟩

/-- The two outcomes of the Laravel `store`: a validation exception with the store
unchanged, or 201 with the new city, under the computed id, appended. -/
theorem laravel_store_cases (request : Body) (db : Cities) :
    Laravel.CityController.store request db = (LaravelOutcome.validationException, db) ∨
    ∃ n k, Laravel.CityController.store request db =
      (LaravelOutcome.response 201
          (LaravelPayload.city { id := Laravel.nextId db, name := n, country := k }),
        db ++ [{ id := Laravel.nextId db, name := n, country := k }]) := by
  cases hv : Laravel.validate request with
  | none => exact Or.inl (by simp [Laravel.CityController.store, hv])
  | some nc =>
    obtain ⟨n, k⟩ := nc
    exact Or.inr ⟨n, k, by simp [Laravel.CityController.store, hv]⟩

/-- The Laravel `store` on a request whose name and country are strings that PHP
`trim` does not empty: 201 with the new city, under the computed id and with the
strings as received, appended at the end. -/
theorem laravel_store_of_valid (request : Body) (db : Cities) (n k : JsString)
    (hn : request.name = JsValue.string n) (hns : phpTrim n ≠ [])
    (hk : request.country = JsValue.string k) (hks : phpTrim k ≠ []) :
    Laravel.CityController.store request db =
      (LaravelOutcome.response 201
          (LaravelPayload.city { id := Laravel.nextId db, name := n, country := k }),
        db ++ [{ id := Laravel.nextId db, name := n, country := k }]) := by
  have hv : Laravel.validate request = some (n, k) := by
    simp [Laravel.validate, hn, hk, requiredString, List.isEmpty_iff, hns, hks]
  simp [Laravel.CityController.store, hv]

/-- C18, at a store that holds the greatest PHP integer as an id. The ids are
pairwise distinct before. The first `store` assigns 9223372036854775808, which is
beyond the greatest PHP integer (PHP holds it as a float). The ids are still
pairwise distinct, yet the next `store` assigns 9223372036854775808 again: this
id is not the greatest stored id plus one, it is not greater than every stored
id, and the ids are not pairwise distinct afterwards. -/
theorem C18_store_repeats_id_beyond_int_max :
    (ids [⟨9223372036854775807, "Tokyo".toList, "Japan".toList⟩]).Nodup ∧
    Laravel.CityController.store
        { name := JsValue.string "Rome".toList, country := JsValue.string "Italy".toList }
        [⟨9223372036854775807, "Tokyo".toList, "Japan".toList⟩] =
      (LaravelOutcome.response 201
          (LaravelPayload.city ⟨9223372036854775808, "Rome".toList, "Italy".toList⟩),
        [⟨9223372036854775807, "Tokyo".toList, "Japan".toList⟩,
         ⟨9223372036854775808, "Rome".toList, "Italy".toList⟩]) ∧
    (ids [⟨9223372036854775807, "Tokyo".toList, "Japan".toList⟩,
          ⟨9223372036854775808, "Rome".toList, "Italy".toList⟩]).Nodup ∧
    Laravel.CityController.store
        { name := JsValue.string "Lima".toList, country := JsValue.string "Peru".toList }
        [⟨9223372036854775807, "Tokyo".toList, "Japan".toList⟩,
         ⟨9223372036854775808, "Rome".toList, "Italy".toList⟩] =
      (LaravelOutcome.response 201
          (LaravelPayload.city ⟨9223372036854775808, "Lima".toList, "Peru".toList⟩),
        [⟨9223372036854775807, "Tokyo".toList, "Japan".toList⟩,
         ⟨9223372036854775808, "Rome".toList, "Italy".toList⟩,
         ⟨9223372036854775808, "Lima".toList, "Peru".toList⟩]) ∧
    ¬ (ids (Laravel.CityController.store
        { name := JsValue.string "Lima".toList, country := JsValue.string "Peru".toList }
        [⟨9223372036854775807, "Tokyo".toList, "Japan".toList⟩,
         ⟨9223372036854775808, "Rome".toList, "Italy".toList⟩]).2).Nodup := by
  decide

/-- C18, amended. Laravel backend, fresh ids: on a store whose ids are pairwise
distinct PHP integers below the greatest one, a `store` request whose name and
country are strings that PHP `trim` does not empty answers 201 and appends the new
city under a new id; that id is 1 when the store is empty and otherwise the
greatest stored id plus one, and it is greater than every stored id. A `store`
request that fails the validation changes nothing. After `store` the ids are
pairwise distinct, whatever the request. `update` leaves the list of ids as it was
and `destroy` leaves a sublist of the store, so no city has its id changed. -/
theorem C18_laravel_fresh_ids (request : Body) (id : Int) (db : Cities)
    (h : (ids db).Nodup) (hb : BelowIntMax db) :
    (∀ n k, request.name = JsValue.string n → phpTrim n ≠ [] →
      request.country = JsValue.string k → phpTrim k ≠ [] →
      ∃ newId,
        Laravel.CityController.store request db =
          (LaravelOutcome.response 201
              (LaravelPayload.city { id := newId, name := n, country := k }),
            db ++ [{ id := newId, name := n, country := k }]) ∧
        (db = [] → newId = 1) ∧
        (db ≠ [] → (∃ c ∈ db, newId = c.id + 1) ∧ ∀ c ∈ db, c.id + 1 ≤ newId) ∧
        (∀ c ∈ db, c.id < newId)) ∧
    (Laravel.validate request = none →
      Laravel.CityController.store request db = (LaravelOutcome.validationException, db)) ∧
    (ids (Laravel.CityController.store request db).2).Nodup ∧
    ids (Laravel.CityController.update request id db).2 = ids db ∧
    List.Sublist (Laravel.CityController.destroy id db).2 db := by
  refine ⟨?_, ?_, ?_, ?_, ?_⟩
  · intro n k hn hns hk hks
    refine ⟨Laravel.nextId db, laravel_store_of_valid request db n k hn hns hk hks,
      ?_, ?_, lt_nextId db hb⟩
    · intro hdb
      rw [hdb]
      rfl
    · intro hdb
      refine ⟨nextId_eq_succ_of_mem db hb hdb, ?_⟩
      intro c hc
      have := lt_nextId db hb c hc
      omega
  · intro hv
    simp [Laravel.CityController.store, hv]
  · rcases laravel_store_cases request db with e | ⟨n, k, e⟩
    · rw [e]
      exact h
    · rw [e]
      simp only [ids, List.map_append, List.map_cons, List.map_nil]
      rw [List.nodup_append]
      refine ⟨h, List.nodup_singleton _, ?_⟩
      intro a ha hb1
      rw [List.mem_singleton] at hb1
      obtain ⟨x, hx, rfl⟩ := List.mem_map.1 ha
      have := lt_nextId db hb x hx
      omega
  · rcases laravel_update_cases request id db with ⟨_, e⟩ | ⟨_, _, _, _, e⟩ |
      ⟨n, k, pre, c, post, _, hdb, _, _, e⟩
    · rw [e]
    · rw [e]
    · rw [e, hdb]
      simp [ids]
  · rcases laravel_destroy_cases id db with ⟨_, e⟩ | ⟨pre, c, post, hdb, _, _, e⟩
    · rw [e]
    · rw [e, hdb]
      exact List.Sublist.append (List.Sublist.refl pre) (List.sublist_cons_self c post)

/-- C18, amended, at the initial store Tokyo, New York, Paris with ids 1, 2, 3:
the hypotheses hold, a create of Rome, Italy answers 201 and appends the city
under id 4, the ids are pairwise distinct afterwards, and an update of id 2 leaves
the ids as they were. -/
theorem C18_laravel_fresh_ids_witness :
    (ids Laravel.cities).Nodup ∧
    BelowIntMax Laravel.cities ∧
    Laravel.CityController.store
        { name := JsValue.string "Rome".toList, country := JsValue.string "Italy".toList }
        Laravel.cities =
      (LaravelOutcome.response 201
          (LaravelPayload.city ⟨4, "Rome".toList, "Italy".toList⟩),
        Laravel.cities ++ [⟨4, "Rome".toList, "Italy".toList⟩]) ∧
    (∃ newId,
      Laravel.CityController.store
          { name := JsValue.string "Rome".toList, country := JsValue.string "Italy".toList }
          Laravel.cities =
        (LaravelOutcome.response 201
            (LaravelPayload.city
              { id := newId, name := "Rome".toList, country := "Italy".toList }),
          Laravel.cities ++
            [{ id := newId, name := "Rome".toList, country := "Italy".toList }]) ∧
      (Laravel.cities = [] → newId = 1) ∧
      (Laravel.cities ≠ [] → (∃ c ∈ Laravel.cities, newId = c.id + 1) ∧
        ∀ c ∈ Laravel.cities, c.id + 1 ≤ newId) ∧
      (∀ c ∈ Laravel.cities, c.id < newId)) ∧
    (ids (Laravel.CityController.store
      { name := JsValue.string "Rome".toList, country := JsValue.string "Italy".toList }
      Laravel.cities).2).Nodup ∧
    ids (Laravel.CityController.update
      { name := JsValue.string "Rome".toList, country := JsValue.string "Italy".toList } 2
      Laravel.cities).2 = ids Laravel.cities :=
  ⟨by decide, by decide, by decide,
    (C18_laravel_fresh_ids
      { name := JsValue.string "Rome".toList, country := JsValue.string "Italy".toList } 2
      Laravel.cities (by decide) (by decide)).1 "Rome".toList "Italy".toList
      rfl (by decide) rfl (by decide),
    (C18_laravel_fresh_ids
      { name := JsValue.string "Rome".toList, country := JsValue.string "Italy".toList } 2
      Laravel.cities (by decide) (by decide)).2.2.1,
    (C18_laravel_fresh_ids
      { name := JsValue.string "Rome".toList, country := JsValue.string "Italy".toList } 2
      Laravel.cities (by decide) (by decide)).2.2.2.1⟩

/-- C16, amended, at concrete requests on the store Tokyo, New York, Paris: a
create of Rome, Italy succeeds on both backends and leaves the same (name,
country) sequence, and an update of id 3 with both fields has the same kind of
result and leaves the same store on both. -/
theorem C16_backends_agree_witness :
    Clean "Rome".toList ∧ Clean "Italy".toList ∧
    (nodeKind (CityController.create 9
        { name := JsValue.string "Rome".toList, country := JsValue.string "Italy".toList }
        Laravel.cities).1 = Kind.success ∧
      laravelKind (Laravel.CityController.store
        { name := JsValue.string "Rome".toList, country := JsValue.string "Italy".toList }
        Laravel.cities).1 = Kind.success ∧
      namesOf (CityController.create 9
        { name := JsValue.string "Rome".toList, country := JsValue.string "Italy".toList }
        Laravel.cities).2 =
      namesOf (Laravel.CityController.store
        { name := JsValue.string "Rome".toList, country := JsValue.string "Italy".toList }
        Laravel.cities).2) ∧
    (nodeKind (CityController.update (ParsedId.int 3)
        { name := JsValue.string "Rome".toList, country := JsValue.string "Italy".toList }
        Laravel.cities).1 =
      laravelKind (Laravel.CityController.update
        { name := JsValue.string "Rome".toList, country := JsValue.string "Italy".toList } 3
        Laravel.cities).1 ∧
      (CityController.update (ParsedId.int 3)
        { name := JsValue.string "Rome".toList, country := JsValue.string "Italy".toList }
        Laravel.cities).2 =
      (Laravel.CityController.update
        { name := JsValue.string "Rome".toList, country := JsValue.string "Italy".toList } 3
        Laravel.cities).2) :=
  ⟨⟨by decide, by decide, by decide⟩, ⟨by decide, by decide, by decide⟩,
    (C16_backends_agree 3
      { name := JsValue.string "Rome".toList, country := JsValue.string "Italy".toList }
      Laravel.cities).2.2.2.1 9 "Rome".toList "Italy".toList rfl rfl
      ⟨by decide, by decide, by decide⟩ ⟨by decide, by decide, by decide⟩,
    (C16_backends_agree 3
      { name := JsValue.string "Rome".toList, country := JsValue.string "Italy".toList }
      Laravel.cities).2.2.2.2.2 "Rome".toList "Italy".toList rfl rfl
      ⟨by decide, by decide, by decide⟩ ⟨by decide, by decide, by decide⟩⟩

/-- C15 at a concrete run for the path of city 3: the Laravel request is rejected
and the Node.js request answers 200, so the Node.js response is returned after
both URLs were requested. -/
theorem C15_fetchWithFallback_witness :
    fetchWithFallback
        (fun url =>
          if url = "http://localhost:8000/api/cities/3" then FetchOutcome.rejected "down"
          else FetchOutcome.resolved { status := 200, text := "ok" })
        "/3" =
      (Except.ok { status := 200, text := "ok" },
        ["http://localhost:8000/api/cities" ++ "/3", "http://localhost:3000/cities" ++ "/3"]) :=
  (C15_fetchWithFallback
      (fun url =>
        if url = "http://localhost:8000/api/cities/3" then FetchOutcome.rejected "down"
        else FetchOutcome.resolved { status := 200, text := "ok" })
      "/3").2.1 (by decide) { status := 200, text := "ok" } (by decide) (by decide)

end CityCrud
